import Mathlib

/-!
The program `talker.c`: a two-way UDP chat endpoint.

A shallow embedding of `talker.c`.  The program talks to its environment only
through system and library calls, so every C function becomes a Lean function
that

* receives the results the environment gives to the calls it makes,
* threads the global variables (`in_fd`, `out_fd`, `term_init`, `term`, `set`)
  explicitly, and
* returns the list of calls it made (with their arguments) together with the
  way control left it: normally, through `exit`, through a failed `assert`,
  or still waiting for a result that the environment has not supplied.
-/

namespace Talker

/-! ## Data -/

/-- One `char` of a C buffer. -/
abbrev Byte := Nat

/-- The bytes of a C string literal. -/
def lit (s : String) : List Byte := s.toList.map Char.toNat

/-- The fields of `struct termios` (from `<termios.h>`); `tcflag_t` is an
unsigned 32-bit integer. -/
structure termios where
  c_iflag : Nat
  c_oflag : Nat
  c_cflag : Nat
  c_lflag : Nat
  c_cc : List Nat
deriving DecidableEq, Repr

/-- System and library calls the program makes, with the arguments that matter. -/
inductive Event where
  /-- Text written to standard output by `printf`. -/
  | printf (text : List Byte)
  /-- Text written to standard error by `fprintf(stderr, ...)`. -/
  | fprintf_stderr (text : List Byte)
  /-- Call `perror(message)`. -/
  | perror (message : String)
  /-- Call `inet_pton(AF_INET, _ip, ...)`. -/
  | inet_pton (ip : List Byte)
  /-- Call `socket(AF_INET, SOCK_DGRAM, 0)`. -/
  | socket
  /-- Call `connect(fd, ...)` with the given `sin_port`. -/
  | connect (fd : Int) (sin_port : Int)
  /-- Call `bind(fd, ...)` with the given `sin_port`. -/
  | bind (fd : Int) (sin_port : Int)
  /-- Call `tcgetattr(0, ...)`. -/
  | tcgetattr
  /-- Call `tcsetattr(0, TCSANOW, attrs)`. -/
  | tcsetattr (attrs : termios)
  /-- Call `signal(SIGINT, exit_handler)`. -/
  | signal
  /-- Call `select(nfds, set, NULL, NULL, NULL)`; `set` is the wait set. -/
  | select (nfds : Int) (set : List Int)
  /-- Call `read(fd, message, count)`. -/
  | read (fd : Int) (count : Int)
  /-- Call `send(fd, message + offset, len, 0)`; `payload` is the `len` bytes
  found at `message + offset`. -/
  | send (fd : Int) (offset : Int) (len : Int) (payload : List Byte)
  /-- Call `close(fd)`. -/
  | close (fd : Int)
deriving DecidableEq, Repr

/-- How control leaves a piece of code. -/
inductive Status (α : Type) where
  /-- Control reaches the end, with a value. -/
  | ok (a : α)
  /-- The process ended through `exit(code)`. -/
  | exited (code : Int)
  /-- An `assert` failed. -/
  | aborted
  /-- A call was made whose result the environment has not supplied. -/
  | pending
deriving DecidableEq, Repr

/-- The calls made by a piece of code, in order, and how control left it. -/
structure Run (α : Type) where
  trace : List Event
  status : Status α
deriving DecidableEq, Repr

/-- Sequencing: the second part runs only if the first one returns. -/
def Run.bind {α β : Type} (x : Run α) (f : α → Run β) : Run β :=
  match x.status with
  | .ok a => ⟨x.trace ++ (f a).trace, (f a).status⟩
  | .exited c => ⟨x.trace, .exited c⟩
  | .aborted => ⟨x.trace, .aborted⟩
  | .pending => ⟨x.trace, .pending⟩

instance : Monad Run where
  pure a := ⟨[], .ok a⟩
  bind := Run.bind

/-- Make one call. -/
def call (e : Event) : Run Unit := ⟨[e], .ok ()⟩

/-- The library function `exit`. -/
def exit {α : Type} (status : Int) : Run α := ⟨[], .exited status⟩

/-- The macro `assert`. -/
def assert (c : Bool) : Run Unit := if c then ⟨[], .ok ()⟩ else ⟨[], .aborted⟩

/-- Control waits for a result the environment has not supplied. -/
def await {α : Type} : Run α := ⟨[], .pending⟩

/-! ## Constants and globals -/

def DEFAULT_IN_PORT : Int := 12345

def DEFAULT_OUT_PORT : Int := 12345

def MESSAGE_LENGTH : Int := 700

/-- Signal number of `SIGINT` (from `<signal.h>`). -/
def SIGINT : Int := 2

/-- The global variables of the program. -/
structure Globals where
  in_fd : Int
  out_fd : Int
  term_init : termios
  term : termios
  set : List Int
deriving DecidableEq, Repr

/-- The macro `FD_ZERO`: the empty descriptor set. -/
def FD_ZERO : List Int := []

/-- The macro `FD_SET`. -/
def FD_SET (fd : Int) (set : List Int) : List Int := fd :: set

/-- The macro `FD_ISSET`. -/
def FD_ISSET (fd : Int) (set : List Int) : Bool := decide (fd ∈ set)

/-! ## Error exit and cleanup -/

/-- Body of `err_assert`, with the cleanup routine it calls passed in:
`err_assert` and `cleaning_the_mess` call each other in the source. -/
def err_assert_with (cleaning : Run Unit) (err_status : Int) (message : Option String) :
    Run Unit :=
  let message := message.getD ""
  if err_status < 0 then do
    call (.perror message)
    cleaning
    exit 1
  else pure ()

/-- Body of `restore_terminal_settings`, given the result of its `tcsetattr`. -/
def restore_terminal_settings_with (cleaning : Run Unit) (g : Globals) (err_status : Int) :
    Run Unit := do
  call (.tcsetattr g.term_init)
  err_assert_with cleaning err_status (some "Failed to restore initial terminal settings")

/-- The function `cleaning_the_mess`.  The list holds the results of the
successive `tcsetattr(0, TCSANOW, &term_init)` calls: a failing one re-enters
`cleaning_the_mess` through `err_assert`. -/
def cleaning_the_mess (g : Globals) : List Int → Run Unit
  | [] => do
    call (.printf (lit "\nCleaning the mess...\n"))
    call (.tcsetattr g.term_init)
    await
  | r :: rest => do
    call (.printf (lit "\nCleaning the mess...\n"))
    restore_terminal_settings_with (cleaning_the_mess g rest) g r
    call (.close g.in_fd)
    call (.close g.out_fd)

/-- The function `err_assert`; `restore` holds the results of the restoring
`tcsetattr` calls made should the cleanup run. -/
def err_assert (g : Globals) (restore : List Int) (err_status : Int)
    (message : Option String) : Run Unit :=
  err_assert_with (cleaning_the_mess g restore) err_status message

/-- The function `restore_terminal_settings`. -/
def restore_terminal_settings (g : Globals) : List Int → Run Unit
  | [] => do
    call (.tcsetattr g.term_init)
    await
  | r :: rest => restore_terminal_settings_with (cleaning_the_mess g rest) g r

/-- The function `print_usage`. -/
def print_usage : Run Unit :=
  call (.fprintf_stderr (lit "Usage: ./talker.bin ip_address [port] [in_port]\n"))

/-! ## Terminal mode -/

/-- What `~mask` is once converted to the unsigned 32-bit `tcflag_t`. -/
def tcflag_not (mask : Nat) : Nat := 2 ^ 32 - 1 - mask

/-- Effect of `tcgetattr(0, &dst)`: on success the terminal attributes `tty`
are stored, on failure the destination is left as it was. -/
def sys_tcgetattr (res : Int × termios) (dst : termios) : termios :=
  if res.1 < 0 then dst else res.2

/-- The function `save_terminal_settings`, given what its two `tcgetattr`
calls answer. -/
def save_terminal_settings (tcgetattr1 tcgetattr2 : Int × termios) (restore : List Int)
    (g : Globals) : Run Globals := do
  call .tcgetattr
  let g := { g with term_init := sys_tcgetattr tcgetattr1 g.term_init }
  err_assert g restore tcgetattr1.1 (some "Failed to save initial terminal setttings")
  call .tcgetattr
  let g := { g with term := sys_tcgetattr tcgetattr2 g.term }
  err_assert g restore tcgetattr2.1 none
  pure g

/-- The function `set_canon_on`; `ICANON` is the flag mask from `<termios.h>`,
`tcsetattr_ret` the result of the `tcsetattr` call. -/
def set_canon_on (ICANON : Nat) (tcsetattr_ret : Int) (restore : List Int) (g : Globals) :
    Run Globals := do
  let g := { g with term := { g.term with c_lflag := g.term.c_lflag ||| ICANON } }
  call (.tcsetattr g.term)
  err_assert g restore tcsetattr_ret (some "")
  pure g

/-- The function `set_canon_off`. -/
def set_canon_off (ICANON : Nat) (tcsetattr_ret : Int) (restore : List Int) (g : Globals) :
    Run Globals := do
  let g := { g with term := { g.term with c_lflag := g.term.c_lflag &&& tcflag_not ICANON } }
  call (.tcsetattr g.term)
  err_assert g restore tcsetattr_ret (some "")
  pure g

/-! ## Reading, showing, sending -/

/-- What a descriptor holds when `read` is called on it. -/
inductive Input where
  /-- The call fails and returns -1. -/
  | error
  /-- The bytes waiting: the line typed at the terminal, or the next datagram. -/
  | data (bytes : List Byte)
deriving DecidableEq, Repr

/-- Effect of `read(fd, message, count)`: the result, and the buffer after the
call.  At most `count` of the waiting bytes are copied to the start of the
buffer. -/
def sys_read (inp : Input) (message : List Byte) (count : Int) : Int × List Byte :=
  match inp with
  | .error => (-1, message)
  | .data bytes =>
    let got := bytes.take count.toNat
    (got.length, got ++ message.drop got.length)

/-- The function `read_from_input`: returns the buffer and the result `c+1`. -/
def read_from_input (kbd : Input) (restore : List Int) (g : Globals) (message : List Byte) :
    Run (List Byte × Int) := do
  call (.read 0 MESSAGE_LENGTH)
  let (c, message) := sys_read kbd message MESSAGE_LENGTH
  err_assert g restore c (some "Failed to read from keyboard")
  let message := message.set c.toNat 0
  pure (message, c + 1)

/-- The function `read_from_network`: returns the buffer. -/
def read_from_network (net : Input) (restore : List Int) (g : Globals) (message : List Byte) :
    Run (List Byte) := do
  call (.read g.in_fd MESSAGE_LENGTH)
  let (c, message) := sys_read net message MESSAGE_LENGTH
  err_assert g restore c (some "Failed to read data from network")
  let message := message.set c.toNat 0
  pure message

/-- What the conversion `%s` prints: the bytes before the first NUL. -/
def c_string (message : List Byte) : List Byte := message.takeWhile (fun b => b != 0)

/-- The function `show_message`; `printf_ret` is the result of `printf`. -/
def show_message (printf_ret : Int) (restore : List Int) (g : Globals) (message : List Byte) :
    Run Unit := do
  call (.printf (lit ">> " ++ c_string message))
  err_assert g restore printf_ret (some "")

/-- The `while(sent < l)` loop of `send_message`; the list holds the results of
the successive `send` calls.  The `int` variables are integers: as long as
`send` reports no more than it was offered, `sent` stays within `0 .. l` and
the additions do not wrap. -/
def send_loop (restore : List Int) (g : Globals) (message : List Byte) (l : Int) :
    List Int → Int → Run Unit
  | [], sent =>
    if sent < l then do
      call (.send g.out_fd sent (l - sent) ((message.drop sent.toNat).take (l - sent).toNat))
      await
    else pure ()
  | c :: rest, sent =>
    if sent < l then do
      call (.send g.out_fd sent (l - sent) ((message.drop sent.toNat).take (l - sent).toNat))
      err_assert g restore c (some "Failed to send data")
      send_loop restore g message l rest (sent + c)
    else pure ()

/-- The function `send_message`. -/
def send_message (send_rets : List Int) (restore : List Int) (g : Globals)
    (message : List Byte) (l : Int) : Run Unit :=
  if l ≤ 2 then pure ()
  else send_loop restore g message l send_rets 0

/-! ## Shutdown on interrupt -/

/-- The function `exit_handler`. -/
def exit_handler (restore : List Int) (g : Globals) (sig : Int) : Run Unit := do
  assert (sig == SIGINT)
  cleaning_the_mess g restore
  call (.printf (lit "Exiting...\n"))
  exit 0

/-- The function `set_signal_handler`; `sig_err` tells whether `signal`
returned `SIG_ERR`. -/
def set_signal_handler (sig_err : Bool) (restore : List Int) (g : Globals) : Run Unit := do
  call .signal
  err_assert g restore (if sig_err then -1 else 47) (some "Failed to set signal handler")

/-! ## The main loop -/

/-- What the environment answers during one iteration of the main loop. -/
structure Oracle where
  /-- Result of `select`. -/
  select_ret : Int
  /-- The descriptor set as `select` leaves it. -/
  select_set : List Int
  /-- Result of the `tcsetattr` that switches the terminal mode. -/
  tcsetattr_ret : Int
  /-- Results of the restoring `tcsetattr` calls, should cleanup run. -/
  restore_rets : List Int
  /-- What `read(0, ...)` finds. -/
  kbd : Input
  /-- What `read(in_fd, ...)` finds. -/
  net : Input
  /-- Results of the successive `send` calls. -/
  send_rets : List Int
  /-- Result of the `printf` in `show_message`. -/
  printf_ret : Int
  /-- Content of the array `message` when it is declared. -/
  stack : List Byte
deriving DecidableEq, Repr

/-- The variables that live across iterations of the loop in `main`. -/
structure LoopState where
  g : Globals
  is_writing : Int
deriving DecidableEq, Repr

/-- The array `char message[MESSAGE_LENGTH+47]` with its indeterminate content
(bytes the environment does not give are taken as 0). -/
def message_array (stack : List Byte) : List Byte :=
  (stack ++ List.replicate (MESSAGE_LENGTH + 47).toNat 0).take (MESSAGE_LENGTH + 47).toNat

/-- One iteration of the `while(1)` loop of `main`. -/
def iteration (ICANON : Nat) (o : Oracle) (s : LoopState) : Run LoopState := do
  let set := FD_SET 0 FD_ZERO
  let set := if s.is_writing = 0 then FD_SET s.g.in_fd set else set
  call (.select (s.g.in_fd + 1) set)
  let g := { s.g with set := o.select_set }
  err_assert g o.restore_rets o.select_ret (some "Failed to set select")
  if FD_ISSET 0 g.set && s.is_writing = 0 then do
    let is_writing := 1
    let g ← set_canon_on ICANON o.tcsetattr_ret o.restore_rets g
    pure ⟨g, is_writing⟩
  else if FD_ISSET 0 g.set && s.is_writing ≠ 0 then do
    let g ← set_canon_off ICANON o.tcsetattr_ret o.restore_rets g
    let is_writing := 0
    let message := message_array o.stack
    let (message, l) ← read_from_input o.kbd o.restore_rets g message
    send_message o.send_rets o.restore_rets g message l
    pure ⟨g, is_writing⟩
  else if FD_ISSET g.in_fd g.set && s.is_writing = 0 then do
    let message := message_array o.stack
    let message ← read_from_network o.net o.restore_rets g message
    show_message o.printf_ret o.restore_rets g message
    pure ⟨g, s.is_writing⟩
  else pure ⟨g, s.is_writing⟩

/-- The first iterations of the `while(1)` loop, one per oracle. -/
def main_loop (ICANON : Nat) : List Oracle → LoopState → Run LoopState
  | [], s => pure s
  | o :: os, s => do
    let s ← iteration ICANON o s
    main_loop ICANON os s

/-! ## Start-up -/

/-- The library function `isspace` in the C locale. -/
def isspace (c : Byte) : Bool := c == 32 || (9 ≤ c && c ≤ 13)

/-- The library function `isdigit`. -/
def isdigit (c : Byte) : Bool := 48 ≤ c && c ≤ 57

/-- Value of the longest run of decimal digits at the start of a string. -/
def digits_value : List Byte → Nat → Nat
  | [], acc => acc
  | c :: cs, acc => if isdigit c then digits_value cs (acc * 10 + (c - 48)) else acc

/-- Conversion of a `long` to the 32-bit `int`. -/
def long_to_int (x : Int) : Int := (x + 2 ^ 31) % 2 ^ 32 - 2 ^ 31

/-- The library function `strtol(nptr, NULL, 10)` with a 64-bit `long`: blanks
are skipped, a sign is taken, the digits that follow are read, and the value
is clamped to the range of `long`. -/
def strtol (nptr : List Byte) : Int :=
  match nptr.dropWhile isspace with
  | [] => 0
  | c :: cs =>
    if c = 45 then max (-(digits_value cs 0 : Int)) (-(2 ^ 63))
    else if c = 43 then min (digits_value cs 0 : Int) (2 ^ 63 - 1)
    else min (digits_value (c :: cs) 0 : Int) (2 ^ 63 - 1)

/-- The library function `atoi`, which is `(int) strtol(nptr, NULL, 10)`. -/
def atoi (nptr : List Byte) : Int := long_to_int (strtol nptr)

/-- The library function `htons`, seen as the 16-bit port number it encodes. -/
def htons (port : Int) : Int := port % 2 ^ 16

/-- What the environment answers during start-up. -/
structure StartEnv where
  /-- Result of the first `tcgetattr` and the attributes it reports. -/
  tcgetattr1 : Int × termios
  /-- Result of the second `tcgetattr` and the attributes it reports. -/
  tcgetattr2 : Int × termios
  /-- Result of `inet_pton` on the first argument. -/
  inet_pton_ret : Int
  /-- Result of the first `socket` call. -/
  socket_out : Int
  /-- Result of `connect`. -/
  connect_ret : Int
  /-- Result of the second `socket` call. -/
  socket_in : Int
  /-- Result of `bind`. -/
  bind_ret : Int
  /-- Whether `signal` returns `SIG_ERR`. -/
  sig_err : Bool
  /-- Result of the `tcsetattr` in the first `set_canon_off`. -/
  tcsetattr_ret : Int
  /-- Results of the restoring `tcsetattr` calls, should cleanup run. -/
  restore_rets : List Int
deriving DecidableEq, Repr

/-- The function `create_sockets`; a `char *` argument is `none` when `NULL`. -/
def create_sockets (e : StartEnv) (g : Globals) (_ip _port _in_port : Option (List Byte)) :
    Run Globals := do
  assert (_ip != none)
  call (.inet_pton (_ip.getD []))
  let err_status := e.inet_pton_ret
  if err_status = 0 then do
    call (.fprintf_stderr (lit "Error: First argument isn't valid IP address!\n"))
    print_usage
    exit 1
  else if err_status = -1 then do
    call (.perror "Error init_out()")
    exit 1
  else do
    let out_port ← (match _port with
      | some _port => do
        let out_port := atoi _port
        if out_port ≤ 0 then do
          call (.fprintf_stderr (lit "Error: Second argument isn't valid port!\n"))
          print_usage
          exit 1
        else pure out_port
      | none => pure DEFAULT_OUT_PORT)
    call .socket
    let g := { g with out_fd := e.socket_out }
    call (.connect g.out_fd (htons out_port))
    err_assert g e.restore_rets e.connect_ret (some "Error while setting out_fd")
    let in_port ← (match _in_port with
      | some _in_port => do
        let in_port := atoi _in_port
        if in_port ≤ 0 then do
          call (.fprintf_stderr (lit "Error: Third argument isn't valid port!\n"))
          call (.fprintf_stderr (_in_port ++ lit " -> " ++ lit (toString in_port) ++ lit "\n"))
          print_usage
          exit 1
        else pure in_port
      | none => pure DEFAULT_IN_PORT)
    call .socket
    let g := { g with in_fd := e.socket_in }
    call (.bind g.in_fd (htons in_port))
    err_assert g e.restore_rets e.bind_ret (some "Error while setting in_fd")
    pure g

/-- The globals before `main` runs: objects of static storage are zeroed. -/
def initial_globals : Globals :=
  ⟨0, 0, ⟨0, 0, 0, 0, List.replicate 32 0⟩, ⟨0, 0, 0, 0, List.replicate 32 0⟩, []⟩

/-- The part of `main` before the loop; `args` is `argv`, its length `argc`. -/
def main_setup (ICANON : Nat) (e : StartEnv) (args : List (List Byte)) : Run Globals := do
  call (.printf (lit "Talker is starting...\n"))
  let g ← save_terminal_settings e.tcgetattr1 e.tcgetattr2 e.restore_rets initial_globals
  let g ← (match args.length with
    | 2 => create_sockets e g args[1]? none none
    | 3 => create_sockets e g args[1]? args[2]? none
    | 4 => create_sockets e g args[1]? args[2]? args[3]?
    | _ => do
      print_usage
      exit 1)
  set_signal_handler e.sig_err e.restore_rets g
  call (.printf (lit "Ctrl + C to exit.\n"))
  set_canon_off ICANON e.tcsetattr_ret e.restore_rets g

/-- The function `main`, followed through the first iterations of its loop. -/
def main (ICANON : Nat) (e : StartEnv) (os : List Oracle) (args : List (List Byte)) :
    Run LoopState := do
  let g ← main_setup ICANON e args
  let is_writing := 0
  main_loop ICANON os ⟨g, is_writing⟩

/-! ## Vocabulary of the statements -/

/-- The text `cleaning_the_mess` prints. -/
def cleaning_text : List Byte := lit "\nCleaning the mess...\n"

/-- The calls `err_assert` and `cleaning_the_mess` make: `perror`, the cleanup
text, the restoring `tcsetattr` of `term_init`, and the two `close` calls. -/
def cleanup_event (g : Globals) : Event → Prop
  | .perror _ => True
  | .printf text => text = cleaning_text
  | .tcsetattr attrs => attrs = g.term_init
  | .close fd => fd = g.in_fd ∨ fd = g.out_fd
  | _ => False

/-- The payloads of the `send` calls of a trace, in order. -/
def payloads : List Event → List (List Byte)
  | [] => []
  | .send _ _ _ payload :: t => payload :: payloads t
  | _ :: t => payloads t

/-- The `send` calls of a trace, in order. -/
def send_calls : List Event → List Event
  | [] => []
  | .send fd offset len payload :: t => .send fd offset len payload :: send_calls t
  | _ :: t => send_calls t

/-- The datagrams that leave: of each offered payload, the bytes that the
`send` call reports as accepted. -/
def datagrams (t : List Event) (send_rets : List Int) : List (List Byte) :=
  List.zipWith (fun payload c => payload.take c.toNat) (payloads t) send_rets

/-- The bytes one `read` of at most `MESSAGE_LENGTH` bytes takes of what waits. -/
def taken (bytes : List Byte) : List Byte := bytes.take MESSAGE_LENGTH.toNat

/-- The globals once `set_canon_on` has set the flag in `term`. -/
def with_canon_on (ICANON : Nat) (g : Globals) : Globals :=
  { g with term := { g.term with c_lflag := g.term.c_lflag ||| ICANON } }

/-- The globals once `set_canon_off` has cleared the flag in `term`. -/
def with_canon_off (ICANON : Nat) (g : Globals) : Globals :=
  { g with term := { g.term with c_lflag := g.term.c_lflag &&& tcflag_not ICANON } }

/-- The globals once `select` has rewritten the descriptor set. -/
def after_select (o : Oracle) (g : Globals) : Globals := { g with set := o.select_set }

/-- The buffer `message` once `read_from_input` has stored what it read and
the NUL after it. -/
def typed_buffer (o : Oracle) (line : List Byte) : List Byte :=
  (taken line ++ (message_array o.stack).drop (taken line).length).set (taken line).length 0

/-- The call `send(out_fd, message + offset, l - offset, 0)`. -/
def send_at (g : Globals) (message : List Byte) (l offset : Int) : Event :=
  .send g.out_fd offset (l - offset) ((message.drop offset.toNat).take (l - offset).toNat)

/-- The states the program can be in once start-up has succeeded: the first
loop state, what an iteration leads to, and what a call of `set_canon_on` or
`set_canon_off` inside an iteration leads to. -/
inductive Reachable (ICANON : Nat) (e : StartEnv) (args : List (List Byte)) :
    LoopState → Prop where
  | start (g : Globals) : (main_setup ICANON e args).status = .ok g →
      Reachable ICANON e args ⟨g, 0⟩
  | step (o : Oracle) (s s' : LoopState) : Reachable ICANON e args s →
      (iteration ICANON o s).status = .ok s' → Reachable ICANON e args s'
  | canon_on (r : Int) (rs : List Int) (s : LoopState) (g' : Globals) (w : Int) :
      Reachable ICANON e args s → (set_canon_on ICANON r rs s.g).status = .ok g' →
      Reachable ICANON e args ⟨g', w⟩
  | canon_off (r : Int) (rs : List Int) (s : LoopState) (g' : Globals) (w : Int) :
      Reachable ICANON e args s → (set_canon_off ICANON r rs s.g).status = .ok g' →
      Reachable ICANON e args ⟨g', w⟩

/-- An oracle for a terminal that has gone away: `select` reports the keyboard,
and the mode switch and the first `n` restoring `tcsetattr` calls all fail. -/
def hung_terminal (n : Nat) : Oracle :=
  { select_ret := 1, select_set := [0], tcsetattr_ret := -1,
    restore_rets := List.replicate n (-1), kbd := .error, net := .error,
    send_rets := [], printf_ret := 0, stack := [] }

/-- The calls an iteration of the loop can make after its `select`: those of
the error exit, a `tcsetattr`, and then, when Composing, the keyboard `read`
and `send` calls that carry a tail of the bytes read and the NUL after them,
or, when Idle, the `read` on the receive socket and the display of a message. -/
def body_event (o : Oracle) (s : LoopState) (e : Event) : Prop :=
  cleanup_event s.g e ∨ (∃ attrs, e = .tcsetattr attrs) ∨
  (s.is_writing ≠ 0 ∧ (e = .read 0 MESSAGE_LENGTH ∨
    ∃ line offset, o.kbd = .data line ∧ 0 ≤ offset ∧
      offset < ((taken line).length : Int) + 1 ∧
      e = .send s.g.out_fd offset (((taken line).length : Int) + 1 - offset)
        ((taken line ++ [0]).drop offset.toNat))) ∨
  (s.is_writing = 0 ∧ (e = .read s.g.in_fd MESSAGE_LENGTH ∨
    ∃ text, e = .printf (lit ">> " ++ text)))

/-! ## Concrete inputs -/

/-- Globals of a running endpoint: receive socket 4, send socket 3, a snapshot
with `ICANON` (value 2 on Linux) set and a working state with it cleared. -/
def sample_globals : Globals := ⟨4, 3, ⟨0, 0, 0, 10, []⟩, ⟨0, 0, 0, 8, []⟩, []⟩

/-- An iteration in which `select` reports the keyboard, with `line` waiting
there, every call succeeds and `send` takes all it is offered. -/
def typing (line : List Byte) : Oracle :=
  { select_ret := 1, select_set := [0], tcsetattr_ret := 0, restore_rets := [],
    kbd := .data line, net := .error, send_rets := [(line.length : Int) + 1],
    printf_ret := 0, stack := [] }

/-- An iteration in which `select` reports the receive socket 4 only, with
`datagram` waiting there, and every call succeeds. -/
def receiving (datagram : List Byte) : Oracle :=
  { select_ret := 1, select_set := [4], tcsetattr_ret := 0, restore_rets := [],
    kbd := .error, net := .data datagram, send_rets := [], printf_ret := 0, stack := [] }

/-- A start-up in which every call succeeds: the terminal has `c_lflag = 10`,
the sockets get descriptors 3 and 4. -/
def sample_start : StartEnv :=
  { tcgetattr1 := (0, ⟨0, 0, 0, 10, []⟩), tcgetattr2 := (0, ⟨0, 0, 0, 10, []⟩),
    inet_pton_ret := 1, socket_out := 3, connect_ret := 0, socket_in := 4, bind_ret := 0,
    sig_err := false, tcsetattr_ret := 0, restore_rets := [] }

/-! ## Sequencing -/

@[simp]
theorem bind_eq {α β : Type} (x : Run α) (f : α → Run β) : x >>= f = Run.bind x f := rfl

@[simp]
theorem pure_eq {α : Type} (a : α) : (pure a : Run α) = ⟨[], .ok a⟩ := rfl

/-- A property of all calls of both parts holds of all calls of the sequence. -/
theorem bind_trace_forall {α β : Type} (P : Event → Prop) (x : Run α) (f : α → Run β)
    (hx : ∀ e ∈ x.trace, P e) (hf : ∀ a, x.status = .ok a → ∀ e ∈ (f a).trace, P e) :
    ∀ e ∈ (Run.bind x f).trace, P e := by
  unfold Run.bind
  cases hs : x.status with
  | ok a =>
    intro e he
    simp only [List.mem_append] at he
    rcases he with he | he
    · exact hx e he
    · exact hf a hs e he
  | exited c => exact hx
  | aborted => exact hx
  | pending => exact hx

/-! ## Error exit and cleanup -/

theorem err_assert_with_ok (cleaning : Run Unit) (c : Int) (m : Option String) (h : 0 ≤ c) :
    err_assert_with cleaning c m = ⟨[], .ok ()⟩ := by
  simp [err_assert_with, not_lt.mpr h]

theorem err_assert_ok (g : Globals) (restore : List Int) (c : Int) (m : Option String)
    (h : 0 ≤ c) : err_assert g restore c m = ⟨[], .ok ()⟩ :=
  err_assert_with_ok _ c m h

/-- Cleanup when the restoring `tcsetattr` succeeds. -/
theorem cleaning_the_mess_ok (g : Globals) (r : Int) (rest : List Int) (h : 0 ≤ r) :
    cleaning_the_mess g (r :: rest) =
      ⟨[.printf cleaning_text, .tcsetattr g.term_init, .close g.in_fd, .close g.out_fd],
        .ok ()⟩ := by
  simp [cleaning_the_mess, restore_terminal_settings_with, err_assert_with_ok _ r _ h,
    Run.bind, call, cleaning_text]

/-- A failed check when the restoring `tcsetattr` succeeds: report, cleanup, `exit(1)`. -/
theorem err_assert_fail (g : Globals) (r : Int) (rest : List Int) (c : Int)
    (m : Option String) (hc : c < 0) (h : 0 ≤ r) :
    err_assert g (r :: rest) c m =
      ⟨[.perror (m.getD ""), .printf cleaning_text, .tcsetattr g.term_init,
        .close g.in_fd, .close g.out_fd], .exited 1⟩ := by
  simp [err_assert, err_assert_with, hc, cleaning_the_mess_ok g r rest h, Run.bind, call, exit]

/-- A failed check never returns. -/
theorem err_assert_with_not_ok (cleaning : Run Unit) (c : Int) (m : Option String)
    (hc : c < 0) : ∀ a, (err_assert_with cleaning c m).status ≠ .ok a := by
  intro a
  simp only [err_assert_with, hc, if_true, bind_eq]
  cases hs : cleaning.status <;> simp [Run.bind, call, exit, hs]

/-- Every call of the cleanup is a cleanup call, whatever `tcsetattr` answers. -/
theorem cleaning_the_mess_events (g : Globals) (restore : List Int) :
    ∀ e ∈ (cleaning_the_mess g restore).trace, cleanup_event g e := by
  induction restore with
  | nil =>
    intro e he
    simp [cleaning_the_mess, Run.bind, call, await] at he
    rcases he with rfl | rfl <;> simp [cleanup_event, cleaning_text]
  | cons r rest ih =>
    simp only [cleaning_the_mess, bind_eq]
    apply bind_trace_forall
    · intro e he
      simp [call] at he
      subst he
      simp [cleanup_event, cleaning_text]
    · intro _ _
      apply bind_trace_forall
      · simp only [restore_terminal_settings_with, bind_eq]
        apply bind_trace_forall
        · intro e he
          simp [call] at he
          subst he
          simp [cleanup_event]
        · intro _ _
          by_cases hr : r < 0
          · simp only [err_assert_with, hr, if_true, bind_eq]
            apply bind_trace_forall
            · intro e he
              simp [call] at he
              subst he
              simp [cleanup_event]
            · intro _ _
              apply bind_trace_forall _ _ _ ih
              intro _ _ e he
              simp [exit] at he
          · simp [err_assert_with, hr]
      · intro _ _
        apply bind_trace_forall
        · intro e he
          simp [call] at he
          subst he
          simp [cleanup_event]
        · intro _ _ e he
          simp [call] at he
          subst he
          simp [cleanup_event]

/-- Every call `err_assert` makes is a cleanup call. -/
theorem err_assert_events (g : Globals) (restore : List Int) (c : Int) (m : Option String) :
    ∀ e ∈ (err_assert g restore c m).trace, cleanup_event g e := by
  by_cases hc : c < 0
  · simp only [err_assert, err_assert_with, hc, if_true, bind_eq]
    apply bind_trace_forall
    · intro e he
      simp [call] at he
      subst he
      simp [cleanup_event]
    · intro _ _
      apply bind_trace_forall _ _ _ (cleaning_the_mess_events g restore)
      intro _ _ e he
      simp [exit] at he
  · simp [err_assert, err_assert_with, hc]

/-! ## Reading and sending -/

theorem message_array_length (stack : List Byte) : (message_array stack).length = 747 := by
  have h : (MESSAGE_LENGTH + 47).toNat = 747 := by decide
  simp only [message_array, h, List.length_take, List.length_append, List.length_replicate]
  omega

theorem taken_length_le (bytes : List Byte) : (taken bytes).length ≤ 700 := by
  have h : MESSAGE_LENGTH.toNat = 700 := by decide
  simp only [taken, h, List.length_take]
  omega

theorem sys_read_data (bytes message : List Byte) :
    sys_read (.data bytes) message MESSAGE_LENGTH =
      (((taken bytes).length : Int), taken bytes ++ message.drop (taken bytes).length) := rfl

/-- After the read and the NUL store, the buffer starts with the bytes read
followed by the NUL. -/
theorem buffer_take (got message : List Byte) (h : got.length < message.length) :
    ((got ++ message.drop got.length).set got.length 0).take (got.length + 1) = got ++ [0] := by
  have hd : message.drop got.length ≠ [] := by
    intro hnil
    have := congrArg List.length hnil
    simp at this
    omega
  obtain ⟨x, xs, hx⟩ := List.exists_cons_of_ne_nil hd
  rw [hx, List.set_append_right _ _ (le_refl _)]
  simp [List.take_append_eq_append_take]

theorem read_from_input_data (line : List Byte) (restore : List Int) (g : Globals)
    (message : List Byte) :
    read_from_input (.data line) restore g message =
      ⟨[.read 0 MESSAGE_LENGTH],
        .ok ((taken line ++ message.drop (taken line).length).set (taken line).length 0,
          ((taken line).length : Int) + 1)⟩ := by
  simp only [read_from_input, sys_read_data, bind_eq]
  rw [err_assert_ok _ _ _ _ (Int.ofNat_nonneg _)]
  simp only [Run.bind, call, Int.toNat_ofNat, pure_eq, List.append_nil]

/-! ## The send loop -/

/-- Cleanup makes no `send` call. -/
theorem send_calls_cleanup (g : Globals) (t : List Event) (h : ∀ e ∈ t, cleanup_event g e) :
    send_calls t = [] := by
  induction t with
  | nil => rfl
  | cons e t ih =>
    have he := h e (List.mem_cons_self _ _)
    have ht := ih (fun x hx => h x (List.mem_cons_of_mem _ hx))
    cases e <;> simp_all [send_calls, cleanup_event]

/-- One turn of the loop whose `send` succeeds. -/
theorem send_loop_cons_ok (restore : List Int) (g : Globals) (message : List Byte) (l : Int)
    (c : Int) (rest : List Int) (sent : Int) (hs : sent < l) (hc : 0 ≤ c) :
    send_loop restore g message l (c :: rest) sent =
      ⟨send_at g message l sent :: (send_loop restore g message l rest (sent + c)).trace,
        (send_loop restore g message l rest (sent + c)).status⟩ := by
  rw [send_loop]
  simp only [hs, if_true, bind_eq, err_assert_ok _ _ _ _ hc]
  simp [Run.bind, call, send_at]

/-- One turn of the loop whose `send` fails. -/
theorem send_loop_cons_fail (restore : List Int) (g : Globals) (message : List Byte) (l : Int)
    (c : Int) (rest : List Int) (sent : Int) (hs : sent < l) (hc : c < 0) :
    send_loop restore g message l (c :: rest) sent =
      ⟨send_at g message l sent ::
          (err_assert g restore c (some "Failed to send data")).trace,
        (err_assert g restore c (some "Failed to send data")).status⟩ := by
  rw [send_loop]
  simp only [hs, if_true, bind_eq]
  have hne := err_assert_with_not_ok (cleaning_the_mess g restore) c
    (some "Failed to send data") hc
  have hne2 : ∀ a, (err_assert g restore c (some "Failed to send data")).status ≠ .ok a := hne
  cases hst : (err_assert g restore c (some "Failed to send data")).status with
  | ok a => exact absurd hst (hne2 a)
  | exited code => simp [Run.bind, call, send_at, hst]
  | aborted => simp [Run.bind, call, send_at, hst]
  | pending => simp [Run.bind, call, send_at, hst]

theorem send_loop_done (restore : List Int) (g : Globals) (message : List Byte) (l : Int)
    (rets : List Int) (sent : Int) (hs : ¬ sent < l) :
    send_loop restore g message l rets sent = ⟨[], .ok ()⟩ := by
  cases rets <;> simp [send_loop, hs]

theorem send_loop_nil (restore : List Int) (g : Globals) (message : List Byte) (l : Int)
    (sent : Int) (hs : sent < l) :
    send_loop restore g message l [] sent = ⟨[send_at g message l sent], .pending⟩ := by
  simp [send_loop, hs, Run.bind, call, await, send_at]

/-- Each `send` call is made at the offset that the earlier results add up to. -/
theorem send_loop_offsets (restore : List Int) (g : Globals) (message : List Byte) (l : Int)
    (rets : List Int) : ∀ (sent : Int) (k : Nat) (e : Event),
    (send_calls (send_loop restore g message l rets sent).trace)[k]? = some e →
      e = send_at g message l (sent + (rets.take k).sum) := by
  induction rets with
  | nil =>
    intro sent k e h
    by_cases hs : sent < l
    · rw [send_loop_nil _ _ _ _ _ hs] at h
      cases k with
      | zero => simpa [send_calls, send_at, eq_comm] using h
      | succ k => simp [send_calls, send_at] at h
    · rw [send_loop_done _ _ _ _ _ _ hs] at h
      simp [send_calls] at h
  | cons c rest ih =>
    intro sent k e h
    by_cases hs : sent < l
    · by_cases hc : 0 ≤ c
      · rw [send_loop_cons_ok _ _ _ _ _ _ _ hs hc] at h
        cases k with
        | zero => simpa [send_calls, send_at, eq_comm] using h
        | succ k =>
          have h2 : (send_calls (send_loop restore g message l rest (sent + c)).trace)[k]?
              = some e := by
            simpa [send_calls, send_at] using h
          have := ih (sent + c) k e h2
          simpa [add_assoc] using this
      · rw [send_loop_cons_fail _ _ _ _ _ _ _ hs (not_le.mp hc)] at h
        cases k with
        | zero => simpa [send_calls, send_at, eq_comm] using h
        | succ k =>
          have hcl := send_calls_cleanup g _ (err_assert_events g restore c
            (some "Failed to send data"))
          simp [send_calls, send_at, hcl] at h
    · rw [send_loop_done _ _ _ _ _ _ hs] at h
      simp [send_calls] at h

theorem datagrams_cons (fd offset len : Int) (payload : List Byte) (t : List Event) (c : Int)
    (rest : List Int) :
    datagrams (.send fd offset len payload :: t) (c :: rest) =
      payload.take c.toNat :: datagrams t rest := by
  simp [datagrams, payloads]

/-- A run of the loop in which every `send` succeeds and whose results first
add up to `l` at the end: it returns after exactly these calls, and the bytes
accepted are the bytes from `sent` up to `l`. -/
theorem send_loop_complete (restore : List Int) (g : Globals) (message : List Byte) (l : Int)
    (rets : List Int) : ∀ (sent : Int), 0 ≤ sent → (∀ c ∈ rets, 0 ≤ c) →
    (∀ k, k < rets.length → sent + (rets.take k).sum < l) → sent + rets.sum = l →
      (send_loop restore g message l rets sent).status = .ok () ∧
      send_calls (send_loop restore g message l rets sent).trace =
        (send_loop restore g message l rets sent).trace ∧
      (send_loop restore g message l rets sent).trace.length = rets.length ∧
      (datagrams (send_loop restore g message l rets sent).trace rets).flatten =
        (message.drop sent.toNat).take (l - sent).toNat := by
  induction rets with
  | nil =>
    intro sent _ _ _ hsum
    have hs : ¬ sent < l := by simp at hsum; omega
    rw [send_loop_done _ _ _ _ _ _ hs]
    have hz : (l - sent).toNat = 0 := by simp at hsum; omega
    simp [send_calls, datagrams, payloads, hz]
  | cons c rest ih =>
    intro sent h0 hnn hpart hsum
    have hs : sent < l := by simpa using hpart 0 (by simp)
    have hc : 0 ≤ c := hnn c (List.mem_cons_self _ _)
    have hrest : ∀ x ∈ rest, 0 ≤ x := fun x hx => hnn x (List.mem_cons_of_mem _ hx)
    have hsum2 : sent + c + rest.sum = l := by simpa [add_assoc] using hsum
    have hpart2 : ∀ k, k < rest.length → sent + c + (rest.take k).sum < l := by
      intro k hk
      have := hpart (k + 1) (by simpa using hk)
      simpa [add_assoc] using this
    obtain ⟨i1, i2, i3, i4⟩ := ih (sent + c) (by omega) hrest hpart2 hsum2
    rw [send_loop_cons_ok _ _ _ _ _ _ _ hs hc]
    refine ⟨i1, ?_, ?_, ?_⟩
    · simp [send_at, send_calls, i2]
    · simp [i3]
    · have hrs : 0 ≤ rest.sum := List.sum_nonneg hrest
      simp only [send_at, datagrams_cons, List.flatten_cons, i4]
      have e1 : (l - sent).toNat = c.toNat + (l - (sent + c)).toNat := by omega
      have e2 : (sent + c).toNat = sent.toNat + c.toNat := by omega
      rw [e1, e2, List.take_take, List.take_add, ← List.drop_drop]
      rw [Nat.min_eq_left (Nat.le_add_right _ _)]

/-- While the results add up to less than `l` the loop goes on: it has made one
call more than it has results. -/
theorem send_loop_pending (restore : List Int) (g : Globals) (message : List Byte) (l : Int)
    (rets : List Int) : ∀ (sent : Int), (∀ c ∈ rets, 0 ≤ c) → sent + rets.sum < l →
      (send_loop restore g message l rets sent).status = .pending ∧
      (send_calls (send_loop restore g message l rets sent).trace).length =
        rets.length + 1 := by
  induction rets with
  | nil =>
    intro sent _ hsum
    have hs : sent < l := by simpa using hsum
    rw [send_loop_nil _ _ _ _ _ hs]
    simp [send_calls, send_at]
  | cons c rest ih =>
    intro sent hnn hsum
    have hc : 0 ≤ c := hnn c (List.mem_cons_self _ _)
    have hrest : ∀ x ∈ rest, 0 ≤ x := fun x hx => hnn x (List.mem_cons_of_mem _ hx)
    have hrs : 0 ≤ rest.sum := List.sum_nonneg hrest
    have hsum2 : sent + c + rest.sum < l := by simpa [add_assoc] using hsum
    have hs : sent < l := by omega
    obtain ⟨i1, i2⟩ := ih (sent + c) hrest hsum2
    rw [send_loop_cons_ok _ _ _ _ _ _ _ hs hc]
    exact ⟨i1, by simp [send_at, send_calls, i2]⟩

/-- The first failing `send` ends the loop in `err_assert`: the calls made are
one `send` per result up to the failing one, then those of `err_assert`. -/
theorem send_loop_fatal (restore : List Int) (g : Globals) (message : List Byte) (l : Int)
    (pre : List Int) (c : Int) (post : List Int) : ∀ (sent : Int), (∀ x ∈ pre, 0 ≤ x) →
    sent + pre.sum < l → c < 0 →
      (send_loop restore g message l (pre ++ c :: post) sent).status =
        (err_assert g restore c (some "Failed to send data")).status ∧
      (send_calls (send_loop restore g message l (pre ++ c :: post) sent).trace).length =
        pre.length + 1 ∧
      (send_loop restore g message l (pre ++ c :: post) sent).trace =
        send_calls (send_loop restore g message l (pre ++ c :: post) sent).trace ++
          (err_assert g restore c (some "Failed to send data")).trace := by
  induction pre with
  | nil =>
    intro sent _ hsum hc
    have hs : sent < l := by simpa using hsum
    have hcl := send_calls_cleanup g _ (err_assert_events g restore c
      (some "Failed to send data"))
    rw [List.nil_append, send_loop_cons_fail _ _ _ _ _ _ _ hs hc]
    simp [send_at, send_calls, hcl]
  | cons x pre ih =>
    intro sent hnn hsum hc
    have hx : 0 ≤ x := hnn x (List.mem_cons_self _ _)
    have hpre : ∀ y ∈ pre, 0 ≤ y := fun y hy => hnn y (List.mem_cons_of_mem _ hy)
    have hps : 0 ≤ pre.sum := List.sum_nonneg hpre
    have hsum2 : sent + x + pre.sum < l := by simpa [add_assoc] using hsum
    have hs : sent < l := by omega
    obtain ⟨i1, i2, i3⟩ := ih (sent + x) hpre hsum2 hc
    rw [List.cons_append, send_loop_cons_ok _ _ _ _ _ _ _ hs hx]
    refine ⟨i1, by simp [send_at, send_calls, i2], ?_⟩
    simp only [send_at, send_calls, List.cons_append, List.cons.injEq, true_and]
    exact i3

theorem send_message_eq (rets restore : List Int) (g : Globals) (message : List Byte)
    (l : Int) (hl : 2 < l) :
    send_message rets restore g message l = send_loop restore g message l rets 0 := by
  simp [send_message, not_le.mpr hl]

/-- C5: for a buffer and a length `l > 2` given to `send_message` and any
results `rets` of the `send` calls: (1) the `k`-th call is made at the offset
that the earlier results add up to, with `l` minus that offset bytes offered;
(2) if no result is negative and the results first add up to `l` with the last
one, the loop returns after exactly these calls and the chunks accepted, put
together in order, are the first `l` bytes of the buffer; (3) as long as the
results add up to less than `l` the loop goes on; (4) the first negative result
is fatal: no `send` call follows it, only the calls of the error exit, which
is the cleanup and `exit(1)` when the restoring `tcsetattr` succeeds. -/
theorem send_message_loop (rets restore : List Int) (g : Globals) (message : List Byte)
    (l : Int) (hl : 2 < l) :
    (∀ (k : Nat) (e : Event),
      (send_calls (send_message rets restore g message l).trace)[k]? = some e →
        e = .send g.out_fd (rets.take k).sum (l - (rets.take k).sum)
          ((message.drop (rets.take k).sum.toNat).take (l - (rets.take k).sum).toNat)) ∧
    ((∀ c ∈ rets, 0 ≤ c) → (∀ k, k < rets.length → (rets.take k).sum < l) → rets.sum = l →
      (send_message rets restore g message l).status = .ok () ∧
      send_calls (send_message rets restore g message l).trace =
        (send_message rets restore g message l).trace ∧
      (send_message rets restore g message l).trace.length = rets.length ∧
      (datagrams (send_message rets restore g message l).trace rets).flatten =
        message.take l.toNat) ∧
    ((∀ c ∈ rets, 0 ≤ c) → rets.sum < l →
      (send_message rets restore g message l).status = .pending ∧
      (send_calls (send_message rets restore g message l).trace).length = rets.length + 1) ∧
    (∀ (pre : List Int) (c : Int) (post : List Int), rets = pre ++ c :: post →
      (∀ x ∈ pre, 0 ≤ x) → pre.sum < l → c < 0 →
      (send_calls (send_message rets restore g message l).trace).length = pre.length + 1 ∧
      ∃ t, (send_message rets restore g message l).trace =
          send_calls (send_message rets restore g message l).trace ++ t ∧
        (∀ e ∈ t, cleanup_event g e) ∧
        (∀ (r : Int) (rs : List Int), restore = r :: rs → 0 ≤ r →
          t = [.perror "Failed to send data", .printf cleaning_text, .tcsetattr g.term_init,
            .close g.in_fd, .close g.out_fd] ∧
          (send_message rets restore g message l).status = .exited 1)) := by
  rw [send_message_eq _ _ _ _ _ hl]
  refine ⟨?_, ?_, ?_, ?_⟩
  · intro k e h
    have := send_loop_offsets restore g message l rets 0 k e h
    simpa [send_at] using this
  · intro hnn hpart hsum
    have := send_loop_complete restore g message l rets 0 (le_refl _) hnn
      (by simpa using hpart) (by simpa using hsum)
    simpa using this
  · intro hnn hsum
    exact send_loop_pending restore g message l rets 0 hnn (by simpa using hsum)
  · intro pre c post hrets hnn hsum hc
    subst hrets
    obtain ⟨h1, h2, h3⟩ := send_loop_fatal restore g message l pre c post 0 hnn
      (by simpa using hsum) hc
    refine ⟨h2, _, h3, err_assert_events g restore c _, ?_⟩
    intro r rs hr hr0
    subst hr
    rw [h1, err_assert_fail g r rs c _ hc hr0]
    simp

/-- C5 at a concrete input: four bytes sent in two chunks of 3 and 1. -/
theorem send_message_loop_witness :
    (2 : Int) < 4 ∧
    (send_message [3, 1] [0] initial_globals [104, 105, 10, 0] 4).status = .ok () ∧
    (datagrams (send_message [3, 1] [0] initial_globals [104, 105, 10, 0] 4).trace
      [3, 1]).flatten = [104, 105, 10, 0] :=
  ⟨by decide,
    ((send_message_loop [3, 1] [0] initial_globals [104, 105, 10, 0] 4 (by decide)).2.1
      (by decide) (by decide) (by decide)).1,
    ((send_message_loop [3, 1] [0] initial_globals [104, 105, 10, 0] 4 (by decide)).2.1
      (by decide) (by decide) (by decide)).2.2.2⟩

/-! ## Terminal mode switches -/

theorem call_bind {β : Type} (e : Event) (f : Unit → Run β) :
    Run.bind (call e) f = ⟨e :: (f ()).trace, (f ()).status⟩ := by
  simp [Run.bind, call]

theorem cleanup_event_congr (g g' : Globals) (h1 : g'.term_init = g.term_init)
    (h2 : g'.in_fd = g.in_fd) (h3 : g'.out_fd = g.out_fd) (e : Event) :
    cleanup_event g' e ↔ cleanup_event g e := by
  cases e <;> simp [cleanup_event, h1, h2, h3]

theorem set_canon_on_eq (ICANON : Nat) (r : Int) (restore : List Int) (g : Globals) :
    set_canon_on ICANON r restore g =
      Run.bind (call (.tcsetattr (with_canon_on ICANON g).term)) (fun _ =>
        Run.bind (err_assert (with_canon_on ICANON g) restore r (some "")) (fun _ =>
          ⟨[], .ok (with_canon_on ICANON g)⟩)) := rfl

theorem set_canon_off_eq (ICANON : Nat) (r : Int) (restore : List Int) (g : Globals) :
    set_canon_off ICANON r restore g =
      Run.bind (call (.tcsetattr (with_canon_off ICANON g).term)) (fun _ =>
        Run.bind (err_assert (with_canon_off ICANON g) restore r (some "")) (fun _ =>
          ⟨[], .ok (with_canon_off ICANON g)⟩)) := rfl

theorem set_canon_on_ok (ICANON : Nat) (r : Int) (restore : List Int) (g : Globals)
    (h : 0 ≤ r) :
    set_canon_on ICANON r restore g =
      ⟨[.tcsetattr (with_canon_on ICANON g).term], .ok (with_canon_on ICANON g)⟩ := by
  rw [set_canon_on_eq, err_assert_ok _ _ _ _ h]
  simp [Run.bind, call]

theorem set_canon_off_ok (ICANON : Nat) (r : Int) (restore : List Int) (g : Globals)
    (h : 0 ≤ r) :
    set_canon_off ICANON r restore g =
      ⟨[.tcsetattr (with_canon_off ICANON g).term], .ok (with_canon_off ICANON g)⟩ := by
  rw [set_canon_off_eq, err_assert_ok _ _ _ _ h]
  simp [Run.bind, call]

/-- A mode switch returns only the globals with the flag switched. -/
theorem set_canon_on_status (ICANON : Nat) (r : Int) (restore : List Int) (g g' : Globals)
    (h : (set_canon_on ICANON r restore g).status = .ok g') : g' = with_canon_on ICANON g := by
  rw [set_canon_on_eq, call_bind] at h
  cases hs : (err_assert (with_canon_on ICANON g) restore r (some "")).status <;>
    simp [Run.bind, hs] at h
  exact h.symm

theorem set_canon_off_status (ICANON : Nat) (r : Int) (restore : List Int) (g g' : Globals)
    (h : (set_canon_off ICANON r restore g).status = .ok g') :
    g' = with_canon_off ICANON g := by
  rw [set_canon_off_eq, call_bind] at h
  cases hs : (err_assert (with_canon_off ICANON g) restore r (some "")).status <;>
    simp [Run.bind, hs] at h
  exact h.symm

/-- The calls of a mode switch: the `tcsetattr`, then at most those of the error exit. -/
theorem set_canon_on_events (ICANON : Nat) (r : Int) (restore : List Int) (g : Globals) :
    ∃ rest, (set_canon_on ICANON r restore g).trace =
        .tcsetattr (with_canon_on ICANON g).term :: rest ∧
      ∀ e ∈ rest, cleanup_event g e := by
  rw [set_canon_on_eq, call_bind]
  refine ⟨_, rfl, ?_⟩
  apply bind_trace_forall
  · intro e he
    exact (cleanup_event_congr g (with_canon_on ICANON g) rfl rfl rfl e).mp
      (err_assert_events (with_canon_on ICANON g) _ _ _ e he)
  · intro _ _ e he
    simp at he

theorem set_canon_off_events (ICANON : Nat) (r : Int) (restore : List Int) (g : Globals) :
    ∃ rest, (set_canon_off ICANON r restore g).trace =
        .tcsetattr (with_canon_off ICANON g).term :: rest ∧
      ∀ e ∈ rest, cleanup_event g e := by
  rw [set_canon_off_eq, call_bind]
  refine ⟨_, rfl, ?_⟩
  apply bind_trace_forall
  · intro e he
    exact (cleanup_event_congr g (with_canon_off ICANON g) rfl rfl rfl e).mp
      (err_assert_events (with_canon_off ICANON g) _ _ _ e he)
  · intro _ _ e he
    simp at he

/-! ## The branches of an iteration -/

/-- The wait set built at the start of an iteration. -/
theorem iteration_idle_keyboard (ICANON : Nat) (o : Oracle) (s : LoopState)
    (h0 : s.is_writing = 0) (hsel : 0 ≤ o.select_ret) (hk : (0 : Int) ∈ o.select_set) :
    iteration ICANON o s =
      Run.bind (call (.select (s.g.in_fd + 1) [s.g.in_fd, 0])) (fun _ =>
        Run.bind (set_canon_on ICANON o.tcsetattr_ret o.restore_rets (after_select o s.g))
          (fun g => ⟨[], .ok ⟨g, 1⟩⟩)) := by
  unfold iteration
  simp [h0, hk, FD_ISSET, FD_SET, FD_ZERO, err_assert_ok _ _ _ _ hsel, after_select]
  simp [Run.bind]

theorem iteration_composing_keyboard (ICANON : Nat) (o : Oracle) (s : LoopState)
    (hw : s.is_writing ≠ 0) (hsel : 0 ≤ o.select_ret) (hk : (0 : Int) ∈ o.select_set) :
    iteration ICANON o s =
      Run.bind (call (.select (s.g.in_fd + 1) [0])) (fun _ =>
        Run.bind (set_canon_off ICANON o.tcsetattr_ret o.restore_rets (after_select o s.g))
          (fun g => Run.bind (read_from_input o.kbd o.restore_rets g (message_array o.stack))
            (fun x => Run.bind (send_message o.send_rets o.restore_rets g x.1 x.2)
              (fun _ => ⟨[], .ok ⟨g, 0⟩⟩)))) := by
  unfold iteration
  simp [hw, hk, FD_ISSET, FD_SET, FD_ZERO, err_assert_ok _ _ _ _ hsel, after_select]
  simp [Run.bind]

theorem iteration_idle_network (ICANON : Nat) (o : Oracle) (s : LoopState)
    (h0 : s.is_writing = 0) (hsel : 0 ≤ o.select_ret) (hk : (0 : Int) ∉ o.select_set)
    (hn : s.g.in_fd ∈ o.select_set) :
    iteration ICANON o s =
      Run.bind (call (.select (s.g.in_fd + 1) [s.g.in_fd, 0])) (fun _ =>
        Run.bind (read_from_network o.net o.restore_rets (after_select o s.g)
            (message_array o.stack))
          (fun message => Run.bind
            (show_message o.printf_ret o.restore_rets (after_select o s.g) message)
            (fun _ => ⟨[], .ok ⟨after_select o s.g, s.is_writing⟩⟩))) := by
  unfold iteration
  simp [h0, hk, hn, FD_ISSET, FD_SET, FD_ZERO, err_assert_ok _ _ _ _ hsel, after_select]
  simp [Run.bind]

/-- C2: an iteration that starts in Idle (`is_writing = 0`) with `select`
reporting the keyboard, whatever else it reports: the calls are the `select`,
then the `tcsetattr` that applies the working state with `ICANON` set, and
after these at most the calls of the error exit, so no `read`, no `send` and no
displayed message; when the `tcsetattr` succeeds these two calls are all, and
the loop goes on with `is_writing = 1` and `ICANON` set in `term`. -/
theorem idle_keyboard_enters_composing (ICANON : Nat) (o : Oracle) (s : LoopState)
    (h0 : s.is_writing = 0) (hsel : 0 ≤ o.select_ret) (hk : (0 : Int) ∈ o.select_set) :
    (∃ rest, (iteration ICANON o s).trace =
        .select (s.g.in_fd + 1) [s.g.in_fd, 0] ::
          .tcsetattr { s.g.term with c_lflag := s.g.term.c_lflag ||| ICANON } :: rest ∧
      ∀ e ∈ rest, cleanup_event s.g e) ∧
    (∀ e ∈ (iteration ICANON o s).trace,
      (∀ fd count, e ≠ .read fd count) ∧ (∀ fd offset len payload, e ≠ .send fd offset len payload) ∧
      (∀ text, e = .printf text → text = cleaning_text)) ∧
    (0 ≤ o.tcsetattr_ret →
      iteration ICANON o s =
        ⟨[.select (s.g.in_fd + 1) [s.g.in_fd, 0],
          .tcsetattr { s.g.term with c_lflag := s.g.term.c_lflag ||| ICANON }],
          .ok ⟨{ s.g with set := o.select_set,
                          term := { s.g.term with c_lflag := s.g.term.c_lflag ||| ICANON } },
            1⟩⟩) ∧
    (∀ i, ICANON.testBit i = true → (s.g.term.c_lflag ||| ICANON).testBit i = true) := by
  have hev : ∃ rest, (iteration ICANON o s).trace =
        .select (s.g.in_fd + 1) [s.g.in_fd, 0] ::
          .tcsetattr { s.g.term with c_lflag := s.g.term.c_lflag ||| ICANON } :: rest ∧
      ∀ e ∈ rest, cleanup_event s.g e := by
    rw [iteration_idle_keyboard ICANON o s h0 hsel hk, call_bind]
    obtain ⟨rest, hrest, hcl⟩ := set_canon_on_events ICANON o.tcsetattr_ret o.restore_rets
      (after_select o s.g)
    refine ⟨rest, ?_, hcl⟩
    have hb : (Run.bind (set_canon_on ICANON o.tcsetattr_ret o.restore_rets
        (after_select o s.g)) (fun g => (⟨[], .ok ⟨g, 1⟩⟩ : Run LoopState))).trace =
        (set_canon_on ICANON o.tcsetattr_ret o.restore_rets (after_select o s.g)).trace := by
      cases hst : (set_canon_on ICANON o.tcsetattr_ret o.restore_rets
        (after_select o s.g)).status <;> simp [Run.bind, hst]
    simp only [hb, hrest]
    rfl
  refine ⟨hev, ?_, ?_, ?_⟩
  · obtain ⟨rest, hrest, hcl⟩ := hev
    intro e he
    rw [hrest] at he
    simp only [List.mem_cons] at he
    rcases he with rfl | rfl | he
    · simp
    · simp
    · have := hcl e he
      cases e <;> simp_all [cleanup_event]
  · intro ht
    rw [iteration_idle_keyboard ICANON o s h0 hsel hk, call_bind,
      set_canon_on_ok _ _ _ _ ht]
    simp [Run.bind, with_canon_on, after_select]
  · intro i hi
    simp [Nat.testBit_or, hi]

/-- C2 at a concrete input: Idle, keyboard and receive socket both reported. -/
theorem idle_keyboard_enters_composing_witness :
    (0 : Int) = 0 ∧ (0 : Int) ≤ 2 ∧ (0 : Int) ∈ [0, (4 : Int)] ∧
    iteration 2 ⟨2, [0, 4], 0, [], .data [97], .data [98], [], 0, []⟩
        ⟨⟨4, 3, ⟨0, 0, 0, 10, []⟩, ⟨0, 0, 0, 8, []⟩, []⟩, 0⟩ =
      ⟨[.select 5 [4, 0], .tcsetattr ⟨0, 0, 0, 10, []⟩],
        .ok ⟨⟨4, 3, ⟨0, 0, 0, 10, []⟩, ⟨0, 0, 0, 10, []⟩, [0, 4]⟩, 1⟩⟩ :=
  ⟨rfl, by decide, by decide,
    (idle_keyboard_enters_composing 2 ⟨2, [0, 4], 0, [], .data [97], .data [98], [], 0, []⟩
      ⟨⟨4, 3, ⟨0, 0, 0, 10, []⟩, ⟨0, 0, 0, 8, []⟩, []⟩, 0⟩ rfl (by decide) (by decide)).2.2.1
      (by decide)⟩

/-! ## A completed line -/

theorem typed_buffer_take (o : Oracle) (line : List Byte) :
    (typed_buffer o line).take ((taken line).length + 1) = taken line ++ [0] := by
  have h1 := taken_length_le line
  have h2 := message_array_length o.stack
  exact buffer_take (taken line) (message_array o.stack) (by omega)

/-- A Composing iteration in which `select`, `tcsetattr` and the keyboard
`read` succeed, up to the call of `send_message`. -/
theorem iteration_composing_ok (ICANON : Nat) (o : Oracle) (s : LoopState) (line : List Byte)
    (hw : s.is_writing ≠ 0) (hsel : 0 ≤ o.select_ret) (hk : (0 : Int) ∈ o.select_set)
    (ht : 0 ≤ o.tcsetattr_ret) (hkbd : o.kbd = .data line) :
    iteration ICANON o s =
      Run.bind ⟨[.select (s.g.in_fd + 1) [0], .tcsetattr (with_canon_off ICANON s.g).term,
          .read 0 MESSAGE_LENGTH], .ok ()⟩ (fun _ =>
        Run.bind (send_message o.send_rets o.restore_rets
            (with_canon_off ICANON (after_select o s.g)) (typed_buffer o line)
            ((taken line).length + 1))
          (fun _ => ⟨[], .ok ⟨with_canon_off ICANON (after_select o s.g), 0⟩⟩)) := by
  rw [iteration_composing_keyboard ICANON o s hw hsel hk, call_bind,
    set_canon_off_ok _ _ _ _ ht, hkbd]
  simp only [Run.bind, read_from_input_data, typed_buffer]
  simp [with_canon_off, after_select]

/-- A line of at most one byte: nothing is sent. -/
theorem iteration_composing_short (ICANON : Nat) (o : Oracle) (s : LoopState)
    (line : List Byte) (hw : s.is_writing ≠ 0) (hsel : 0 ≤ o.select_ret)
    (hk : (0 : Int) ∈ o.select_set) (ht : 0 ≤ o.tcsetattr_ret) (hkbd : o.kbd = .data line)
    (hc : (taken line).length ≤ 1) :
    iteration ICANON o s =
      ⟨[.select (s.g.in_fd + 1) [0], .tcsetattr (with_canon_off ICANON s.g).term,
          .read 0 MESSAGE_LENGTH],
        .ok ⟨with_canon_off ICANON (after_select o s.g), 0⟩⟩ := by
  rw [iteration_composing_ok ICANON o s line hw hsel hk ht hkbd]
  have hl : ((taken line).length : Int) + 1 ≤ 2 := by omega
  simp [send_message, hl, Run.bind]

/-- A line of two bytes or more whose first `send` takes all that is offered:
one `send` call, carrying the bytes read and the NUL stored after them. -/
theorem iteration_composing_sent (ICANON : Nat) (o : Oracle) (s : LoopState)
    (line : List Byte) (hw : s.is_writing ≠ 0) (hsel : 0 ≤ o.select_ret)
    (hk : (0 : Int) ∈ o.select_set) (ht : 0 ≤ o.tcsetattr_ret) (hkbd : o.kbd = .data line)
    (hc : 2 ≤ (taken line).length)
    (hsend : o.send_rets.head? = some (((taken line).length : Int) + 1)) :
    iteration ICANON o s =
      ⟨[.select (s.g.in_fd + 1) [0], .tcsetattr (with_canon_off ICANON s.g).term,
          .read 0 MESSAGE_LENGTH,
          .send s.g.out_fd 0 ((taken line).length + 1) (taken line ++ [0])],
        .ok ⟨with_canon_off ICANON (after_select o s.g), 0⟩⟩ := by
  rw [iteration_composing_ok ICANON o s line hw hsel hk ht hkbd]
  obtain ⟨rest, hrest⟩ : ∃ rest, o.send_rets = (((taken line).length : Int) + 1) :: rest := by
    cases hs : o.send_rets with
    | nil => simp [hs] at hsend
    | cons c rest => exact ⟨rest, by simp [hs] at hsend; simp [hsend]⟩
  have hl : (2 : Int) < ((taken line).length : Int) + 1 := by omega
  have hnat : (((taken line).length : Int) + 1).toNat = (taken line).length + 1 := by omega
  rw [hrest, send_message_eq _ _ _ _ _ hl,
    send_loop_cons_ok _ _ _ _ _ _ _ (by omega) (by omega),
    send_loop_done _ _ _ _ _ _ (by omega)]
  simp [Run.bind, send_at, hnat, typed_buffer_take, with_canon_off, after_select]

theorem taken_eq (line : List Byte) (h : line.length ≤ 700) : taken line = line := by
  have h700 : MESSAGE_LENGTH.toNat = 700 := by decide
  simp only [taken, h700]
  exact List.take_of_length_le h

/-- C4, amended: for a line completed in Composing whose keyboard `read`
returns `c` bytes (`taken line`, which is the whole line when it has at most
700 bytes): if `c ≤ 1` no `send` call is made; if `c ≥ 2` and `send` takes all
it is offered, exactly one `send` call is made, and it carries `c + 1` bytes:
the `c` bytes read followed by the NUL that `read_from_input` stores. -/
theorem completed_line_send (ICANON : Nat) (o : Oracle) (s : LoopState) (line : List Byte)
    (hw : s.is_writing ≠ 0) (hsel : 0 ≤ o.select_ret) (hk : (0 : Int) ∈ o.select_set)
    (ht : 0 ≤ o.tcsetattr_ret) (hkbd : o.kbd = .data line) :
    ((taken line).length ≤ 1 →
      iteration ICANON o s =
        ⟨[.select (s.g.in_fd + 1) [0], .tcsetattr (with_canon_off ICANON s.g).term,
            .read 0 MESSAGE_LENGTH],
          .ok ⟨with_canon_off ICANON (after_select o s.g), 0⟩⟩) ∧
    (2 ≤ (taken line).length →
      o.send_rets.head? = some (((taken line).length : Int) + 1) →
      iteration ICANON o s =
        ⟨[.select (s.g.in_fd + 1) [0], .tcsetattr (with_canon_off ICANON s.g).term,
            .read 0 MESSAGE_LENGTH,
            .send s.g.out_fd 0 ((taken line).length + 1) (taken line ++ [0])],
          .ok ⟨with_canon_off ICANON (after_select o s.g), 0⟩⟩) ∧
    (line.length ≤ 700 → taken line = line) :=
  ⟨iteration_composing_short ICANON o s line hw hsel hk ht hkbd,
    iteration_composing_sent ICANON o s line hw hsel hk ht hkbd,
    taken_eq line⟩

/-- C4, amended, at a concrete input: the line `"hi\n"`. -/
theorem completed_line_send_witness :
    (1 : Int) ≠ 0 ∧
    send_calls (iteration 2 (typing [104, 105, 10]) ⟨sample_globals, 1⟩).trace =
      [.send 3 0 4 [104, 105, 10, 0]] :=
  ⟨by decide, by
    have h := (completed_line_send 2 (typing [104, 105, 10]) ⟨sample_globals, 1⟩
      [104, 105, 10] (by decide) (by decide) (by decide) (by decide) rfl).2.1
      (by decide) (by decide)
    rw [h]
    decide⟩

/-- C4 fails as stated: the two-byte line `"a\n"` is sent, and what is handed
to `send` for it, as for the three-byte line `"hi\n"`, is one byte longer than
what was typed. -/
theorem two_byte_line_is_sent :
    ([97, 10] : List Byte).length = 2 ∧
    payloads (iteration 2 (typing [97, 10]) ⟨sample_globals, 1⟩).trace = [[97, 10, 0]] ∧
    payloads (iteration 2 (typing [104, 105, 10]) ⟨sample_globals, 1⟩).trace =
      [[104, 105, 10, 0]] := by
  decide

/-! ## Two keyboard events -/

theorem testBit_tcflag_not (mask i : Nat) (h : mask < 2 ^ 32) :
    (tcflag_not mask).testBit i = (decide (i < 32) && !mask.testBit i) := by
  have e : tcflag_not mask = 2 ^ 32 - (mask + 1) := by
    unfold tcflag_not
    omega
  rw [e, Nat.testBit_two_pow_sub_succ h]

/-- Setting the flag and clearing it again leaves a state with the flag cleared as it was. -/
theorem canon_on_off (ICANON x : Nat) (h : ICANON < 2 ^ 32) :
    ((x &&& tcflag_not ICANON) ||| ICANON) &&& tcflag_not ICANON = x &&& tcflag_not ICANON := by
  apply Nat.eq_of_testBit_eq
  intro i
  simp only [Nat.testBit_and, Nat.testBit_or, testBit_tcflag_not _ _ h]
  cases x.testBit i <;> cases ICANON.testBit i <;> simp

theorem main_loop_one (ICANON : Nat) (o : Oracle) (s : LoopState) :
    main_loop ICANON [o] s = Run.bind (iteration ICANON o s) (fun s => ⟨[], .ok s⟩) := rfl

theorem main_loop_two (ICANON : Nat) (o1 o2 : Oracle) (s : LoopState) :
    main_loop ICANON [o1, o2] s =
      Run.bind (iteration ICANON o1 s) (fun s =>
        Run.bind (iteration ICANON o2 s) (fun s => ⟨[], .ok s⟩)) := rfl

/-- C3, amended: from the initial loop state (`is_writing = 0`, `term` as
`set_canon_off` leaves it) and two keyboard-ready iterations in which no call
fails and `send` takes all it is offered: after the first, `is_writing = 1` and
`ICANON` is set in `term`; after the second, `is_writing = 0` and `term` is
again the initial working state, that is `ICANON` cleared and every other bit of
`c_lflag` as before; one keyboard `read` of at most `MESSAGE_LENGTH` bytes has
been made; and one `send` call has been made, or none if the `read` returned
at most 1 byte (the length `c + 1` given to `send_message` is then `≤ 2`). -/
theorem two_keyboard_events (ICANON : Nat) (g : Globals) (o1 o2 : Oracle) (line : List Byte)
    (hI : ICANON < 2 ^ 32) (hx : g.term.c_lflag < 2 ^ 32)
    (h1s : 0 ≤ o1.select_ret) (h1k : (0 : Int) ∈ o1.select_set) (h1t : 0 ≤ o1.tcsetattr_ret)
    (h2s : 0 ≤ o2.select_ret) (h2k : (0 : Int) ∈ o2.select_set) (h2t : 0 ≤ o2.tcsetattr_ret)
    (hkbd : o2.kbd = .data line)
    (hsend : 2 ≤ (taken line).length →
      o2.send_rets.head? = some (((taken line).length : Int) + 1)) :
    main_loop ICANON [o1] ⟨with_canon_off ICANON g, 0⟩ =
      ⟨[.select (g.in_fd + 1) [g.in_fd, 0],
        .tcsetattr (with_canon_on ICANON (with_canon_off ICANON g)).term],
        .ok ⟨with_canon_on ICANON (after_select o1 (with_canon_off ICANON g)), 1⟩⟩ ∧
    (∀ i, ICANON.testBit i = true →
      (with_canon_on ICANON (with_canon_off ICANON g)).term.c_lflag.testBit i = true) ∧
    main_loop ICANON [o1, o2] ⟨with_canon_off ICANON g, 0⟩ =
      ⟨[.select (g.in_fd + 1) [g.in_fd, 0],
        .tcsetattr (with_canon_on ICANON (with_canon_off ICANON g)).term,
        .select (g.in_fd + 1) [0],
        .tcsetattr (with_canon_off ICANON g).term,
        .read 0 MESSAGE_LENGTH] ++
        (if (taken line).length ≤ 1 then []
          else [.send g.out_fd 0 ((taken line).length + 1) (taken line ++ [0])]),
        .ok ⟨after_select o2 (with_canon_off ICANON g), 0⟩⟩ ∧
    (with_canon_off ICANON g).term = { g.term with
      c_lflag := g.term.c_lflag &&& tcflag_not ICANON } ∧
    (∀ i, (g.term.c_lflag &&& tcflag_not ICANON).testBit i =
      (g.term.c_lflag.testBit i && !ICANON.testBit i)) := by
  have hcycle : with_canon_off ICANON (after_select o2
      (with_canon_on ICANON (after_select o1 (with_canon_off ICANON g)))) =
      after_select o2 (with_canon_off ICANON g) := by
    simp [with_canon_off, with_canon_on, after_select, canon_on_off _ _ hI]
  have hterm : (with_canon_off ICANON
      (with_canon_on ICANON (after_select o1 (with_canon_off ICANON g)))).term =
      (with_canon_off ICANON g).term := by
    simp [with_canon_off, with_canon_on, after_select, canon_on_off _ _ hI]
  have hfirst := (iteration_idle_keyboard ICANON o1 ⟨with_canon_off ICANON g, 0⟩ rfl h1s h1k)
  rw [call_bind, set_canon_on_ok _ _ _ _ h1t] at hfirst
  refine ⟨?_, ?_, ?_, rfl, ?_⟩
  · rw [main_loop_one, hfirst]
    simp [Run.bind, with_canon_on, with_canon_off, after_select]
  · intro i hi
    simp [with_canon_on, Nat.testBit_or, hi]
  · rw [main_loop_two, hfirst]
    by_cases hc : (taken line).length ≤ 1
    · have h2 := iteration_composing_short ICANON o2
        ⟨with_canon_on ICANON (after_select o1 (with_canon_off ICANON g)), 1⟩ line
        (by simp) h2s h2k h2t hkbd hc
      simp only [Run.bind, h2, hcycle, hterm, hc, if_true]
      simp [with_canon_on, with_canon_off, after_select]
    · have h2 := iteration_composing_sent ICANON o2
        ⟨with_canon_on ICANON (after_select o1 (with_canon_off ICANON g)), 1⟩ line
        (by simp) h2s h2k h2t hkbd (by omega) (hsend (by omega))
      simp only [Run.bind, h2, hcycle, hterm, hc, if_false]
      simp [with_canon_on, with_canon_off, after_select]
  · intro i
    rw [Nat.testBit_and, testBit_tcflag_not _ _ hI]
    by_cases hi : i < 32
    · simp [hi]
    · have hlt : g.term.c_lflag < 2 ^ i :=
        lt_of_lt_of_le hx (Nat.pow_le_pow_right (by decide) (by omega))
      simp [Nat.testBit_lt_two_pow hlt]

/-- C3, amended, at a concrete input: a first key, then the line `"hi\n"`. -/
theorem two_keyboard_events_witness :
    (2 : Nat) < 2 ^ 32 ∧ sample_globals.term.c_lflag < 2 ^ 32 ∧
    send_calls (main_loop 2 [typing [], typing [104, 105, 10]]
      ⟨with_canon_off 2 sample_globals, 0⟩).trace = [.send 3 0 4 [104, 105, 10, 0]] :=
  ⟨by decide, by decide, by
    have h := (two_keyboard_events 2 sample_globals (typing []) (typing [104, 105, 10])
      [104, 105, 10] (by decide) (by decide) (by decide) (by decide) (by decide) (by decide)
      (by decide) (by decide) rfl (fun _ => by decide)).2.2.1
    rw [h]
    decide⟩

/-- C3 fails as stated: after two keyboard events a composed line of length 2,
`"a\n"`, has been sent. -/
theorem two_byte_line_after_two_events :
    ([97, 10] : List Byte).length ≤ 2 ∧
    send_calls (main_loop 2 [typing [], typing [97, 10]]
      ⟨with_canon_off 2 sample_globals, 0⟩).trace = [.send 3 0 3 [97, 10, 0]] := by
  decide

/-! ## The calls of an iteration -/

theorem send_loop_events (restore : List Int) (g : Globals) (message : List Byte) (l : Int)
    (rets : List Int) : ∀ (sent : Int), 0 ≤ sent →
    ∀ e ∈ (send_loop restore g message l rets sent).trace,
      cleanup_event g e ∨ ∃ offset, 0 ≤ offset ∧ offset < l ∧ e = send_at g message l offset := by
  induction rets with
  | nil =>
    intro sent h0 e he
    by_cases hs : sent < l
    · rw [send_loop_nil _ _ _ _ _ hs] at he
      simp at he
      exact Or.inr ⟨sent, h0, hs, he⟩
    · rw [send_loop_done _ _ _ _ _ _ hs] at he
      simp at he
  | cons c rest ih =>
    intro sent h0 e he
    by_cases hs : sent < l
    · by_cases hc : 0 ≤ c
      · rw [send_loop_cons_ok _ _ _ _ _ _ _ hs hc] at he
        simp only [List.mem_cons] at he
        rcases he with rfl | he
        · exact Or.inr ⟨sent, h0, hs, rfl⟩
        · exact ih (sent + c) (by omega) e he
      · rw [send_loop_cons_fail _ _ _ _ _ _ _ hs (not_le.mp hc)] at he
        simp only [List.mem_cons] at he
        rcases he with rfl | he
        · exact Or.inr ⟨sent, h0, hs, rfl⟩
        · exact Or.inl (err_assert_events _ _ _ _ e he)
    · rw [send_loop_done _ _ _ _ _ _ hs] at he
      simp at he

theorem send_message_events (rets restore : List Int) (g : Globals) (message : List Byte)
    (l : Int) : ∀ e ∈ (send_message rets restore g message l).trace,
      cleanup_event g e ∨ ∃ offset, 0 ≤ offset ∧ offset < l ∧ e = send_at g message l offset := by
  unfold send_message
  split
  · intro e he
    simp at he
  · exact send_loop_events restore g message l rets 0 (le_refl _)

/-- What is offered at an offset is the tail of the bytes read and the NUL. -/
theorem send_at_typed (g : Globals) (o : Oracle) (line : List Byte) (offset : Int)
    (h0 : 0 ≤ offset) (h1 : offset < ((taken line).length : Int) + 1) :
    send_at g (typed_buffer o line) (((taken line).length : Int) + 1) offset =
      .send g.out_fd offset (((taken line).length : Int) + 1 - offset)
        ((taken line ++ [0]).drop offset.toNat) := by
  have e : (((taken line).length : Int) + 1 - offset).toNat =
      ((taken line).length + 1) - offset.toNat := by omega
  simp only [send_at, e, ← List.drop_take, typed_buffer_take]

theorem read_from_input_status (kbd : Input) (restore : List Int) (g : Globals)
    (message : List Byte) (x : List Byte × Int)
    (h : (read_from_input kbd restore g message).status = .ok x) :
    ∃ line, kbd = .data line ∧
      x = ((taken line ++ message.drop (taken line).length).set (taken line).length 0,
        ((taken line).length : Int) + 1) := by
  cases kbd with
  | error =>
    exfalso
    simp only [read_from_input, sys_read, bind_eq, call_bind] at h
    have hne := err_assert_with_not_ok (cleaning_the_mess g restore) (-1)
      (some "Failed to read from keyboard") (by decide)
    cases hst : (err_assert g restore (-1) (some "Failed to read from keyboard")).status with
    | ok a => exact hne a hst
    | exited c => simp [Run.bind, hst] at h
    | aborted => simp [Run.bind, hst] at h
    | pending => simp [Run.bind, hst] at h
  | data line =>
    rw [read_from_input_data] at h
    exact ⟨line, rfl, by simpa [eq_comm] using h⟩

theorem read_from_input_events (kbd : Input) (restore : List Int) (g : Globals)
    (message : List Byte) : ∀ e ∈ (read_from_input kbd restore g message).trace,
      e = .read 0 MESSAGE_LENGTH ∨ cleanup_event g e := by
  simp only [read_from_input, bind_eq, call_bind]
  intro e he
  simp only [List.mem_cons] at he
  rcases he with rfl | he
  · exact Or.inl rfl
  · right
    revert e
    apply bind_trace_forall
    · exact err_assert_events _ _ _ _
    · intro _ _ e he
      simp at he

theorem read_from_network_events (net : Input) (restore : List Int) (g : Globals)
    (message : List Byte) : ∀ e ∈ (read_from_network net restore g message).trace,
      e = .read g.in_fd MESSAGE_LENGTH ∨ cleanup_event g e := by
  simp only [read_from_network, bind_eq, call_bind]
  intro e he
  simp only [List.mem_cons] at he
  rcases he with rfl | he
  · exact Or.inl rfl
  · right
    revert e
    apply bind_trace_forall
    · exact err_assert_events _ _ _ _
    · intro _ _ e he
      simp at he

theorem show_message_events (printf_ret : Int) (restore : List Int) (g : Globals)
    (message : List Byte) : ∀ e ∈ (show_message printf_ret restore g message).trace,
      e = .printf (lit ">> " ++ c_string message) ∨ cleanup_event g e := by
  simp only [show_message, bind_eq, call_bind]
  intro e he
  simp only [List.mem_cons] at he
  rcases he with rfl | he
  · exact Or.inl rfl
  · exact Or.inr (err_assert_events _ _ _ _ e he)

/-- Every iteration starts with `select` on the wait set it has built; the
calls that follow are those listed by `body_event`. -/
theorem iteration_events (ICANON : Nat) (o : Oracle) (s : LoopState) :
    ∃ rest, (iteration ICANON o s).trace =
        .select (s.g.in_fd + 1) (if s.is_writing = 0 then [s.g.in_fd, 0] else [0]) :: rest ∧
      ∀ e ∈ rest, body_event o s e := by
  have hcl : ∀ (g : Globals), g.term_init = s.g.term_init → g.in_fd = s.g.in_fd →
      g.out_fd = s.g.out_fd → ∀ e, cleanup_event g e → body_event o s e := by
    intro g h1 h2 h3 e he
    exact Or.inl ((cleanup_event_congr s.g g h1 h2 h3 e).mp he)
  unfold iteration
  simp only [bind_eq, call_bind, FD_SET, FD_ZERO]
  refine ⟨_, rfl, ?_⟩
  apply bind_trace_forall
  · intro e he
    exact hcl { s.g with set := o.select_set } rfl rfl rfl e (err_assert_events _ _ _ _ e he)
  · intro _ _
    split
    · apply bind_trace_forall
      · obtain ⟨rest, hrest, hc⟩ := set_canon_on_events ICANON o.tcsetattr_ret o.restore_rets
          { s.g with set := o.select_set }
        intro e he
        rw [hrest] at he
        simp only [List.mem_cons] at he
        rcases he with rfl | he
        · exact Or.inr (Or.inl ⟨_, rfl⟩)
        · exact hcl _ rfl rfl rfl e (hc e he)
      · intro _ _ e he
        simp at he
    · split
      · rename_i hnot hcond
        have hw : s.is_writing ≠ 0 := by
          simp only [Bool.and_eq_true, decide_eq_true_eq] at hcond
          exact hcond.2
        apply bind_trace_forall
        · obtain ⟨rest, hrest, hc⟩ := set_canon_off_events ICANON o.tcsetattr_ret
            o.restore_rets { s.g with set := o.select_set }
          intro e he
          rw [hrest] at he
          simp only [List.mem_cons] at he
          rcases he with rfl | he
          · exact Or.inr (Or.inl ⟨_, rfl⟩)
          · exact hcl _ rfl rfl rfl e (hc e he)
        · intro g hg
          have hgeq := set_canon_off_status _ _ _ _ _ hg
          subst hgeq
          apply bind_trace_forall
          · intro e he
            rcases read_from_input_events _ _ _ _ e he with rfl | h
            · exact Or.inr (Or.inr (Or.inl ⟨hw, Or.inl rfl⟩))
            · exact hcl _ rfl rfl rfl e h
          · intro x hx
            obtain ⟨line, hline, hxeq⟩ := read_from_input_status _ _ _ _ _ hx
            subst hxeq
            apply bind_trace_forall
            · intro e he
              rcases send_message_events _ _ _ _ _ e he with h | ⟨offset, h0, h1, rfl⟩
              · exact hcl _ rfl rfl rfl e h
              · refine Or.inr (Or.inr (Or.inl ⟨hw, Or.inr ⟨line, offset, hline, h0, h1, ?_⟩⟩))
                exact send_at_typed _ o line offset h0 h1
            · intro _ _ e he
              simp at he
      · split
        · rename_i hn1 hn2 hcond
          have h0 : s.is_writing = 0 := by
            simp only [Bool.and_eq_true, decide_eq_true_eq] at hcond
            exact hcond.2
          apply bind_trace_forall
          · intro e he
            rcases read_from_network_events _ _ _ _ e he with rfl | h
            · exact Or.inr (Or.inr (Or.inr ⟨h0, Or.inl rfl⟩))
            · exact hcl _ rfl rfl rfl e h
          · intro message _
            apply bind_trace_forall
            · intro e he
              rcases show_message_events _ _ _ _ e he with rfl | h
              · exact Or.inr (Or.inr (Or.inr ⟨h0, Or.inr ⟨_, rfl⟩⟩))
              · exact hcl _ rfl rfl rfl e h
            · intro _ _ e he
              simp at he
        · intro e he
          simp at he

/-- C1: in every iteration the first call is the one `select`, made on a wait
set that holds the keyboard descriptor 0; and if `is_writing` is true when the
wait set is built (the receive socket being a descriptor other than 0), the
receive descriptor `in_fd` is not in that wait set and no `read` on `in_fd` is
made in the iteration, whatever `select` and the other calls answer. -/
theorem composing_excludes_receive_socket (ICANON : Nat) (o : Oracle) (s : LoopState) :
    ∃ set rest, (iteration ICANON o s).trace = .select (s.g.in_fd + 1) set :: rest ∧
      (∀ nfds set2, Event.select nfds set2 ∉ rest) ∧
      (0 : Int) ∈ set ∧
      (s.is_writing ≠ 0 → s.g.in_fd ≠ 0 →
        s.g.in_fd ∉ set ∧ ∀ count, Event.read s.g.in_fd count ∉ (iteration ICANON o s).trace) := by
  obtain ⟨rest, hrest, hbody⟩ := iteration_events ICANON o s
  refine ⟨_, rest, hrest, ?_, ?_, ?_⟩
  · intro nfds set2 hmem
    rcases hbody _ hmem with h | ⟨_, h⟩ | ⟨_, h | ⟨_, _, _, _, _, h⟩⟩ | ⟨_, h | ⟨_, h⟩⟩
    · simp [cleanup_event] at h
    all_goals simp at h
  · split <;> simp
  · intro hw hfd
    refine ⟨by simp [hw, hfd], ?_⟩
    intro count hmem
    rw [hrest] at hmem
    simp only [List.mem_cons] at hmem
    rcases hmem with hmem | hmem
    · simp at hmem
    · rcases hbody _ hmem with h | ⟨_, h⟩ | ⟨_, h | ⟨_, _, _, _, _, h⟩⟩ | ⟨h0, _⟩
      · simp [cleanup_event] at h
      · simp at h
      · simp only [Event.read.injEq] at h
        exact hfd h.1
      · simp at h
      · exact hw h0

/-- C1 at a concrete input: Composing, with `select` reporting both the
keyboard and the receive socket 4. -/
theorem composing_excludes_receive_socket_witness :
    (1 : Int) ≠ 0 ∧ sample_globals.in_fd ≠ 0 ∧
    ∀ count, Event.read 4 count ∉
      (iteration 2 { typing [104, 105, 10] with select_set := [0, 4] }
        ⟨sample_globals, 1⟩).trace := by
  obtain ⟨set, rest, _, _, _, h⟩ := composing_excludes_receive_socket 2
    { typing [104, 105, 10] with select_set := [0, 4] } ⟨sample_globals, 1⟩
  exact ⟨by decide, by decide, (h (by decide) (by decide)).2⟩

/-- C7, amended: whatever the keyboard `read` and the calls after it answer,
every payload the loop hands to `send` is a tail of the bytes read followed by
one NUL byte, and is these bytes and the NUL in full when the offset is 0 (the
first `send`); so a payload has at most `MESSAGE_LENGTH + 1 = 701` bytes. -/
theorem send_payload_bound (ICANON : Nat) (o : Oracle) (s : LoopState) (fd offset len : Int)
    (payload : List Byte)
    (h : Event.send fd offset len payload ∈ (iteration ICANON o s).trace) :
    ∃ line, o.kbd = .data line ∧ (taken line).length ≤ 700 ∧
      fd = s.g.out_fd ∧ 0 ≤ offset ∧
      payload = (taken line ++ [0]).drop offset.toNat ∧
      (offset = 0 → payload = taken line ++ [0]) ∧
      payload.length ≤ 701 := by
  obtain ⟨rest, hrest, hbody⟩ := iteration_events ICANON o s
  rw [hrest] at h
  simp only [List.mem_cons] at h
  rcases h with h | h
  · simp at h
  · rcases hbody _ h with h | ⟨_, h⟩ | ⟨_, h | ⟨line, off, hline, h0, h1, h⟩⟩ | ⟨_, h | ⟨_, h⟩⟩
    · simp [cleanup_event] at h
    · simp at h
    · simp at h
    · simp only [Event.send.injEq] at h
      obtain ⟨hfd, hoff, _, hp⟩ := h
      subst hoff
      have hlen := taken_length_le line
      refine ⟨line, hline, hlen, hfd, h0, hp, ?_, ?_⟩
      · intro hz
        simp [hp, hz]
      · simp [hp]
        omega
    · simp at h
    · simp at h

/-- C7, amended, at a concrete input: the line `"hi\n"`. -/
theorem send_payload_bound_witness :
    Event.send 3 0 4 [104, 105, 10, 0] ∈
      (iteration 2 (typing [104, 105, 10]) ⟨sample_globals, 1⟩).trace ∧
    ∃ line, (typing [104, 105, 10]).kbd = .data line ∧ (taken line).length ≤ 700 ∧
      (3 : Int) = (⟨sample_globals, 1⟩ : LoopState).g.out_fd ∧ (0 : Int) ≤ 0 ∧
      [104, 105, 10, 0] = (taken line ++ [0]).drop (0 : Int).toNat ∧
      ((0 : Int) = 0 → [104, 105, 10, 0] = taken line ++ [0]) ∧
      ([104, 105, 10, 0] : List Byte).length ≤ 701 :=
  ⟨by decide, send_payload_bound 2 (typing [104, 105, 10]) ⟨sample_globals, 1⟩ 3 0 4
    [104, 105, 10, 0] (by decide)⟩

/-- C7 fails as stated: for a line of 700 bytes the payload handed to `send`
has 701 bytes, the 700 typed and a NUL byte added after them. -/
theorem full_line_payload :
    (List.replicate 700 97 : List Byte).length = 700 ∧
    payloads (iteration 2 (typing (List.replicate 700 97)) ⟨sample_globals, 1⟩).trace =
      [List.replicate 700 97 ++ [0]] ∧
    (List.replicate 700 97 ++ [0] : List Byte).length = 701 := by
  refine ⟨List.length_replicate _ _, ?_, by
    simp only [List.length_append, List.length_replicate, List.length_singleton]⟩
  have ht : taken (List.replicate 700 97) = List.replicate 700 97 :=
    taken_eq _ (le_of_eq (List.length_replicate _ _))
  have h2 : 2 ≤ (taken (List.replicate 700 97)).length := by
    rw [ht, List.length_replicate]
    omega
  have hs : (typing (List.replicate 700 97)).send_rets.head? =
      some (((taken (List.replicate 700 97)).length : Int) + 1) := by
    rw [ht]
    rfl
  rw [iteration_composing_sent 2 (typing (List.replicate 700 97)) ⟨sample_globals, 1⟩
    (List.replicate 700 97) (by decide) (by decide) (by decide) (by decide) rfl h2 hs, ht]
  rfl

/-! ## From one endpoint to the other -/

theorem c_string_append (line rest : List Byte) (h : (0 : Byte) ∉ line) :
    c_string (line ++ 0 :: rest) = line := by
  induction line with
  | nil => simp [c_string]
  | cons b line ih =>
    have hb : b ≠ 0 := fun hb => h (by simp [hb])
    have hl : (0 : Byte) ∉ line := fun hl => h (List.mem_cons_of_mem _ hl)
    have := ih hl
    simp only [c_string] at this
    simp [c_string, hb, this]

theorem read_from_network_data (datagram : List Byte) (restore : List Int) (g : Globals)
    (message : List Byte) :
    read_from_network (.data datagram) restore g message =
      ⟨[.read g.in_fd MESSAGE_LENGTH],
        .ok ((taken datagram ++ message.drop (taken datagram).length).set
          (taken datagram).length 0)⟩ := by
  simp only [read_from_network, sys_read_data, bind_eq]
  rw [err_assert_ok _ _ _ _ (Int.ofNat_nonneg _)]
  simp only [Run.bind, call, Int.toNat_ofNat, pure_eq, List.append_nil]

theorem show_message_ok (printf_ret : Int) (restore : List Int) (g : Globals)
    (message : List Byte) (hp : 0 ≤ printf_ret) :
    show_message printf_ret restore g message =
      ⟨[.printf (lit ">> " ++ c_string message)], .ok ()⟩ := by
  simp only [show_message, bind_eq, call_bind, err_assert_ok _ _ _ _ hp]

/-- An Idle iteration in which only the receive socket is reported and no call
fails: the datagram is read and displayed. -/
theorem iteration_idle_network_ok (ICANON : Nat) (o : Oracle) (s : LoopState)
    (datagram : List Byte) (h0 : s.is_writing = 0) (hsel : 0 ≤ o.select_ret)
    (hk : (0 : Int) ∉ o.select_set) (hn : s.g.in_fd ∈ o.select_set)
    (hnet : o.net = .data datagram) (hp : 0 ≤ o.printf_ret) :
    iteration ICANON o s =
      ⟨[.select (s.g.in_fd + 1) [s.g.in_fd, 0], .read s.g.in_fd MESSAGE_LENGTH,
          .printf (lit ">> " ++ c_string (typed_buffer o datagram))],
        .ok ⟨after_select o s.g, s.is_writing⟩⟩ := by
  rw [iteration_idle_network ICANON o s h0 hsel hk hn, call_bind, hnet,
    read_from_network_data]
  simp only [Run.bind, show_message_ok _ _ _ _ hp]
  simp [typed_buffer, after_select]

/-- What is displayed for a datagram that holds a line without NUL bytes and
the NUL after it. -/
theorem c_string_typed_buffer (o : Oracle) (line : List Byte) (hL : line.length ≤ 700)
    (hnul : (0 : Byte) ∉ line) : c_string (typed_buffer o (line ++ [0])) = line := by
  have h700 : MESSAGE_LENGTH.toNat = 700 := by decide
  have hsplit := List.take_append_drop ((taken (line ++ [0])).length + 1)
    (typed_buffer o (line ++ [0]))
  rw [typed_buffer_take] at hsplit
  rw [← hsplit]
  by_cases hlt : line.length < 700
  · have ht : taken (line ++ [0]) = line ++ [0] :=
      taken_eq _ (by simp; omega)
    rw [ht]
    simp only [List.append_assoc, List.singleton_append]
    exact c_string_append line _ hnul
  · have ht : taken (line ++ [0]) = line := by
      have hlen : line.length = 700 := by omega
      simp only [taken, h700]
      rw [← hlen, List.take_left]
    rw [ht]
    simp only [List.append_assoc, List.singleton_append]
    exact c_string_append line _ hnul

/-- C6, amended: endpoint A completes a line of `L` bytes, `2 ≤ L ≤ 700`, none of
them NUL, and its `send` takes all it is offered; the datagrams that leave A
are what waits at B's receive socket; B is Idle and `select` reports its
receive socket only; no call fails.  Then B displays the 3 bytes `">> "`
followed by exactly the `L` bytes typed at A. -/
theorem round_trip (ICANON : Nat) (oA oB : Oracle) (sA sB : LoopState) (line : List Byte)
    (hA : sA.is_writing ≠ 0) (hAsel : 0 ≤ oA.select_ret) (hAk : (0 : Int) ∈ oA.select_set)
    (hAt : 0 ≤ oA.tcsetattr_ret) (hAkbd : oA.kbd = .data line)
    (hL2 : 2 ≤ line.length) (hL : line.length ≤ 700) (hnul : (0 : Byte) ∉ line)
    (hAsend : oA.send_rets.head? = some ((line.length : Int) + 1))
    (hB : sB.is_writing = 0) (hBsel : 0 ≤ oB.select_ret) (hBk : (0 : Int) ∉ oB.select_set)
    (hBn : sB.g.in_fd ∈ oB.select_set) (hBp : 0 ≤ oB.printf_ret)
    (hchan : (datagrams (iteration ICANON oA sA).trace oA.send_rets).map Input.data =
      [oB.net]) :
    (iteration ICANON oB sB).trace =
      [.select (sB.g.in_fd + 1) [sB.g.in_fd, 0], .read sB.g.in_fd MESSAGE_LENGTH,
        .printf (lit ">> " ++ line)] ∧
    lit ">> " = [62, 62, 32] := by
  refine ⟨?_, by decide⟩
  have ht : taken line = line := taken_eq line hL
  obtain ⟨rest, hrest⟩ : ∃ rest, oA.send_rets = ((line.length : Int) + 1) :: rest := by
    cases hs : oA.send_rets with
    | nil => simp [hs] at hAsend
    | cons c rest => exact ⟨rest, by simp [hs] at hAsend; simp [hAsend]⟩
  have hAiter := iteration_composing_sent ICANON oA sA line hA hAsel hAk hAt hAkbd
    (by rw [ht]; exact hL2) (by rw [ht]; exact hAsend)
  rw [hAiter, ht, hrest] at hchan
  have hnat : ((line.length : Int) + 1).toNat = line.length + 1 := by omega
  simp [datagrams, payloads, hnat] at hchan
  have htake : List.take (line.length + 1) (line ++ [0]) = line ++ [0] :=
    List.take_of_length_le (by simp)
  rw [htake] at hchan
  rw [iteration_idle_network_ok ICANON oB sB (line ++ [0]) hB hBsel hBk hBn hchan.symm hBp,
    c_string_typed_buffer oB line hL hnul]

/-- C6, amended, at a concrete input: `"hi\n"` typed at A is displayed at B. -/
theorem round_trip_witness :
    (iteration 2 (receiving [104, 105, 10, 0]) ⟨sample_globals, 0⟩).trace =
      [.select 5 [4, 0], .read 4 MESSAGE_LENGTH, .printf (lit ">> " ++ [104, 105, 10])] ∧
    lit ">> " = [62, 62, 32] :=
  round_trip 2 (typing [104, 105, 10]) (receiving [104, 105, 10, 0]) ⟨sample_globals, 1⟩
    ⟨sample_globals, 0⟩ [104, 105, 10] (by decide) (by decide) (by decide) (by decide) rfl
    (by decide) (by decide) (by decide) (by decide) rfl (by decide) (by decide) (by decide)
    (by decide) (by decide)

/-- C6 fails as stated: for the one-byte message `"\n"` no datagram leaves A, so
B has nothing to display; a typed NUL byte ends what B displays; and the
marker `">> "` has 3 bytes. -/
theorem short_message_not_delivered :
    ([10] : List Byte).length ≤ 700 ∧
    datagrams (iteration 2 (typing [10]) ⟨sample_globals, 1⟩).trace (typing [10]).send_rets
      = [] ∧
    datagrams (iteration 2 (typing [97, 0, 98, 10]) ⟨sample_globals, 1⟩).trace
      (typing [97, 0, 98, 10]).send_rets = [[97, 0, 98, 10, 0]] ∧
    (iteration 2 (receiving [97, 0, 98, 10, 0]) ⟨sample_globals, 0⟩).trace =
      [.select 5 [4, 0], .read 4 700, .printf [62, 62, 32, 97]] ∧
    (lit ">> ").length = 3 := by
  decide

/-! ## Port arguments -/

/-- A string that does not start with a digit, a blank or a sign has value 0. -/
theorem atoi_not_numeric (c : Byte) (cs : List Byte) (hd : isdigit c = false)
    (hs : isspace c = false) (hm : c ≠ 45) (hp : c ≠ 43) : atoi (c :: cs) = 0 := by
  simp [atoi, strtol, List.dropWhile, hs, hm, hp, digits_value, hd, long_to_int]

/-- A minus sign followed by digits of value at most `2 ^ 31` has that value, negated. -/
theorem atoi_minus (cs : List Byte) (h : digits_value cs 0 ≤ 2 ^ 31) :
    atoi (45 :: cs) = -(digits_value cs 0 : Int) := by
  have hs : isspace 45 = false := by decide
  have hd : (digits_value cs 0 : Int) ≤ 2 ^ 31 := by exact_mod_cast h
  have h0 : (0 : Int) ≤ (digits_value cs 0 : Int) := Int.ofNat_nonneg _
  have hmax : max (-(digits_value cs 0 : Int)) (-(2 ^ 63)) = -(digits_value cs 0 : Int) :=
    max_eq_left (by omega)
  simp only [atoi, strtol, List.dropWhile, hs, if_true, hmax, long_to_int]
  omega

/-- C8, amended: with a valid peer address, a port string on which `atoi`
yields a value `≤ 0` (as it does on the empty string, on every string that
starts with something other than a digit, a blank or a sign, and on a minus
sign followed by digits of value at most `2 ^ 31`) is rejected with
the diagnostic, the usage text and exit status 1.  Given as the send port, this
happens before any `socket`, `connect` or `bind` call.  Given as the listen
port, with the send port valid or omitted and `connect` succeeding, it happens
after the `socket` and `connect` calls of the send endpoint and before any
`socket` or `bind` call of the receive endpoint. -/
theorem invalid_port_rejected (e : StartEnv) (g : Globals) (ip : List Byte)
    (port in_port : Option (List Byte)) (hip : e.inet_pton_ret = 1) :
    (∀ p, port = some p → atoi p ≤ 0 →
      create_sockets e g (some ip) port in_port =
        ⟨[.inet_pton ip,
          .fprintf_stderr (lit "Error: Second argument isn't valid port!\n"),
          .fprintf_stderr (lit "Usage: ./talker.bin ip_address [port] [in_port]\n")],
          .exited 1⟩) ∧
    (∀ q, in_port = some q → atoi q ≤ 0 → (∀ p, port = some p → 0 < atoi p) →
      0 ≤ e.connect_ret →
      create_sockets e g (some ip) port in_port =
        ⟨[.inet_pton ip, .socket,
          .connect e.socket_out (htons (match port with
            | some p => atoi p
            | none => DEFAULT_OUT_PORT)),
          .fprintf_stderr (lit "Error: Third argument isn't valid port!\n"),
          .fprintf_stderr (q ++ lit " -> " ++ lit (toString (atoi q)) ++ lit "\n"),
          .fprintf_stderr (lit "Usage: ./talker.bin ip_address [port] [in_port]\n")],
          .exited 1⟩) ∧
    atoi [] = 0 ∧
    (∀ c cs, isdigit c = false → isspace c = false → c ≠ 45 → c ≠ 43 →
      atoi (c :: cs) = 0) ∧
    (∀ cs, digits_value cs 0 ≤ 2 ^ 31 →
      atoi (45 :: cs) = -(digits_value cs 0 : Int) ∧ atoi (45 :: cs) ≤ 0) := by
  refine ⟨?_, ?_, by decide, atoi_not_numeric, fun cs h =>
    ⟨atoi_minus cs h, by rw [atoi_minus cs h]; omega⟩⟩
  · intro p hp hbad
    subst hp
    simp [create_sockets, assert, hip, hbad, Run.bind, call, exit, print_usage]
  · intro q hq hbad hport hconn
    subst hq
    cases port with
    | none =>
      simp [create_sockets, assert, hip, hbad, Run.bind, call, exit, print_usage,
        err_assert_ok _ _ _ _ hconn]
    | some p =>
      have hpos := hport p rfl
      simp [create_sockets, assert, hip, hbad, not_le.mpr hpos, Run.bind, call, exit,
        print_usage, err_assert_ok _ _ _ _ hconn]

/-- C8, amended, at a concrete input: send port `"0"`. -/
theorem invalid_port_rejected_witness :
    sample_start.inet_pton_ret = 1 ∧ atoi (lit "0") ≤ 0 ∧
    create_sockets sample_start initial_globals (some (lit "127.0.0.1")) (some (lit "0"))
        none =
      ⟨[.inet_pton (lit "127.0.0.1"),
        .fprintf_stderr (lit "Error: Second argument isn't valid port!\n"),
        .fprintf_stderr (lit "Usage: ./talker.bin ip_address [port] [in_port]\n")],
        .exited 1⟩ :=
  ⟨rfl, by decide,
    (invalid_port_rejected sample_start initial_globals (lit "127.0.0.1") (some (lit "0"))
      none rfl).1 (lit "0") rfl (by decide)⟩

/-- C8 fails as stated: with the listen port `"abc"` the validation error comes
after the send socket has been created and connected; and the non-numeric send
port `"12abc"` is accepted as port 12. -/
theorem listen_port_checked_late :
    create_sockets sample_start initial_globals (some (lit "127.0.0.1")) (some (lit "9000"))
        (some (lit "abc")) =
      ⟨[.inet_pton (lit "127.0.0.1"), .socket, .connect 3 9000,
        .fprintf_stderr (lit "Error: Third argument isn't valid port!\n"),
        .fprintf_stderr (lit "abc -> 0\n"),
        .fprintf_stderr (lit "Usage: ./talker.bin ip_address [port] [in_port]\n")],
        .exited 1⟩ ∧
    (create_sockets sample_start initial_globals (some (lit "127.0.0.1"))
        (some (lit "12abc")) none).trace =
      [.inet_pton (lit "127.0.0.1"), .socket, .connect 3 12, .socket, .bind 4 12345] := by
  decide

/-! ## What the loop leaves untouched -/

theorem bind_status_ok {α β : Type} (x : Run α) (f : α → Run β) (b : β)
    (h : (Run.bind x f).status = .ok b) : ∃ a, x.status = .ok a ∧ (f a).status = .ok b := by
  unfold Run.bind at h
  cases hs : x.status with
  | ok a =>
    rw [hs] at h
    exact ⟨a, rfl, h⟩
  | exited c => rw [hs] at h; simp at h
  | aborted => rw [hs] at h; simp at h
  | pending => rw [hs] at h; simp at h

theorem err_assert_status_ok (g : Globals) (restore : List Int) (c : Int) (m : Option String)
    (a : Unit) (h : (err_assert g restore c m).status = .ok a) : 0 ≤ c := by
  by_contra hc
  exact err_assert_with_not_ok (cleaning_the_mess g restore) c m (not_le.mp hc) a h

/-- An iteration that returns leaves `term_init`, `in_fd` and `out_fd` as they were. -/
theorem iteration_frame (ICANON : Nat) (o : Oracle) (s s' : LoopState)
    (h : (iteration ICANON o s).status = .ok s') :
    s'.g.term_init = s.g.term_init ∧ s'.g.in_fd = s.g.in_fd ∧ s'.g.out_fd = s.g.out_fd := by
  unfold iteration at h
  simp only [bind_eq, call_bind] at h
  obtain ⟨_, _, h⟩ := bind_status_ok _ _ _ h
  split at h
  · obtain ⟨g1, hg1, h⟩ := bind_status_ok _ _ _ h
    have := set_canon_on_status _ _ _ _ _ hg1
    subst this
    simp at h
    subst h
    exact ⟨rfl, rfl, rfl⟩
  · split at h
    · obtain ⟨g1, hg1, h⟩ := bind_status_ok _ _ _ h
      have := set_canon_off_status _ _ _ _ _ hg1
      subst this
      obtain ⟨_, _, h⟩ := bind_status_ok _ _ _ h
      obtain ⟨_, _, h⟩ := bind_status_ok _ _ _ h
      simp at h
      subst h
      exact ⟨rfl, rfl, rfl⟩
    · split at h
      · obtain ⟨_, _, h⟩ := bind_status_ok _ _ _ h
        obtain ⟨_, _, h⟩ := bind_status_ok _ _ _ h
        simp at h
        subst h
        exact ⟨rfl, rfl, rfl⟩
      · simp at h
        subst h
        exact ⟨rfl, rfl, rfl⟩

/-- What `save_terminal_settings` returns: `term_init` holds the attributes
that the first `tcgetattr` reported. -/
theorem save_terminal_settings_status (t1 t2 : Int × termios) (restore : List Int)
    (g g' : Globals) (h : (save_terminal_settings t1 t2 restore g).status = .ok g') :
    g'.term_init = t1.2 ∧ g'.in_fd = g.in_fd ∧ g'.out_fd = g.out_fd := by
  unfold save_terminal_settings at h
  simp only [bind_eq, call_bind] at h
  obtain ⟨a, h1, h⟩ := bind_status_ok _ _ _ h
  have h1' := err_assert_status_ok _ _ _ _ a h1
  simp only [call_bind] at h
  obtain ⟨_, _, h⟩ := bind_status_ok _ _ _ h
  simp at h
  subst h
  simp [sys_tcgetattr, not_lt.mpr h1']

/-- What `create_sockets` returns: the two descriptors are those that the
`socket` calls gave, and `term_init` is as it was. -/
theorem create_sockets_status (e : StartEnv) (g g' : Globals)
    (ip port in_port : Option (List Byte))
    (h : (create_sockets e g ip port in_port).status = .ok g') :
    g'.term_init = g.term_init ∧ g'.in_fd = e.socket_in ∧ g'.out_fd = e.socket_out := by
  unfold create_sockets at h
  simp only [bind_eq] at h
  obtain ⟨_, _, h⟩ := bind_status_ok _ _ _ h
  simp only [call_bind] at h
  split at h
  · simp [Run.bind, call, exit, print_usage] at h
  · split at h
    · simp [Run.bind, call, exit] at h
    · obtain ⟨_, _, h⟩ := bind_status_ok _ _ _ h
      simp only [call_bind] at h
      obtain ⟨_, _, h⟩ := bind_status_ok _ _ _ h
      obtain ⟨_, _, h⟩ := bind_status_ok _ _ _ h
      simp only [call_bind] at h
      obtain ⟨_, _, h⟩ := bind_status_ok _ _ _ h
      simp at h
      subst h
      exact ⟨rfl, rfl, rfl⟩

/-- What start-up returns: the snapshot in `term_init` and the two sockets. -/
theorem main_setup_status (ICANON : Nat) (e : StartEnv) (args : List (List Byte))
    (g : Globals) (h : (main_setup ICANON e args).status = .ok g) :
    g.term_init = e.tcgetattr1.2 ∧ g.in_fd = e.socket_in ∧ g.out_fd = e.socket_out := by
  unfold main_setup at h
  simp only [bind_eq, call_bind] at h
  obtain ⟨g1, hg1, h⟩ := bind_status_ok _ _ _ h
  obtain ⟨s1, _, _⟩ := save_terminal_settings_status _ _ _ _ _ hg1
  obtain ⟨g2, hg2, h⟩ := bind_status_ok _ _ _ h
  have hcs : g2.term_init = g1.term_init ∧ g2.in_fd = e.socket_in ∧
      g2.out_fd = e.socket_out := by
    split at hg2
    · exact create_sockets_status _ _ _ _ _ _ hg2
    · exact create_sockets_status _ _ _ _ _ _ hg2
    · exact create_sockets_status _ _ _ _ _ _ hg2
    · simp [Run.bind, call, exit, print_usage] at hg2
  obtain ⟨c1, c2, c3⟩ := hcs
  obtain ⟨_, _, h⟩ := bind_status_ok _ _ _ h
  simp only [call_bind] at h
  have := set_canon_off_status _ _ _ _ _ h
  subst this
  exact ⟨by simp [with_canon_off, c1, s1], by simp [with_canon_off, c2],
    by simp [with_canon_off, c3]⟩

/-- In every reachable state `term_init` is the snapshot taken at start-up and
the descriptors are the two sockets created at start-up. -/
theorem reachable_frame (ICANON : Nat) (e : StartEnv) (args : List (List Byte))
    (s : LoopState) (h : Reachable ICANON e args s) :
    s.g.term_init = e.tcgetattr1.2 ∧ s.g.in_fd = e.socket_in ∧ s.g.out_fd = e.socket_out := by
  induction h with
  | start g hg => exact main_setup_status ICANON e args g hg
  | step o s s' _ hstep ih =>
    obtain ⟨f1, f2, f3⟩ := iteration_frame ICANON o s s' hstep
    exact ⟨f1.trans ih.1, f2.trans ih.2.1, f3.trans ih.2.2⟩
  | canon_on r rs s g' w _ hon ih =>
    have := set_canon_on_status _ _ _ _ _ hon
    subst this
    exact ih
  | canon_off r rs s g' w _ hoff ih =>
    have := set_canon_off_status _ _ _ _ _ hoff
    subst this
    exact ih

/-! ## Interrupt and failure -/

theorem cleaning_the_mess_head (g : Globals) (restore : List Int) :
    ∃ t, (cleaning_the_mess g restore).trace =
      .printf cleaning_text :: .tcsetattr g.term_init :: t := by
  cases restore with
  | nil => exact ⟨[], by simp [cleaning_the_mess, Run.bind, call, await, cleaning_text]⟩
  | cons r rest =>
    simp only [cleaning_the_mess, restore_terminal_settings_with, bind_eq, call_bind]
    cases h1 : (err_assert_with (cleaning_the_mess g rest) r
      (some "Failed to restore initial terminal settings")).status <;>
      simp [Run.bind, h1, cleaning_text, call]

/-- C9: in every reachable state (after start-up, any number of iterations and
of `set_canon_on` / `set_canon_off` calls), `term_init` is the snapshot that
`save_terminal_settings` took and `in_fd`, `out_fd` are the sockets created at
start-up; `exit_handler`, run on `SIGINT`, first calls `tcsetattr` with that
snapshot, and when this call succeeds it closes `in_fd` and `out_fd`, prints
the farewell and exits with status 0. -/
theorem interrupt_restores_snapshot (ICANON : Nat) (e : StartEnv) (args : List (List Byte))
    (s : LoopState) (r : Int) (rest : List Int) (sig : Int)
    (hreach : Reachable ICANON e args s) (hsig : sig = SIGINT) (hr : 0 ≤ r) :
    s.g.term_init = e.tcgetattr1.2 ∧ s.g.in_fd = e.socket_in ∧ s.g.out_fd = e.socket_out ∧
    (∀ restore, ∃ t, (exit_handler restore s.g sig).trace =
      .printf cleaning_text :: .tcsetattr e.tcgetattr1.2 :: t) ∧
    exit_handler (r :: rest) s.g sig =
      ⟨[.printf cleaning_text, .tcsetattr e.tcgetattr1.2, .close e.socket_in,
        .close e.socket_out, .printf (lit "Exiting...\n")], .exited 0⟩ := by
  obtain ⟨f1, f2, f3⟩ := reachable_frame ICANON e args s hreach
  refine ⟨f1, f2, f3, ?_, ?_⟩
  · intro restore
    obtain ⟨t, ht⟩ := cleaning_the_mess_head s.g restore
    subst hsig
    simp only [exit_handler, bind_eq, assert, beq_self_eq_true, if_true]
    cases hst : (cleaning_the_mess s.g restore).status <;>
      simp [Run.bind, hst, ht, f1]
  · subst hsig
    simp [exit_handler, assert, cleaning_the_mess_ok _ _ _ hr, Run.bind, call, exit,
      f1, f2, f3]

/-- C9 at a concrete input: start-up with `argv = talker 127.0.0.1`, one
keyboard event, then the interrupt while Composing. -/
theorem interrupt_restores_snapshot_witness :
    (main_setup 2 sample_start [lit "talker", lit "127.0.0.1"]).status =
      .ok sample_globals ∧
    (iteration 2 (typing []) ⟨sample_globals, 0⟩).status =
      .ok ⟨⟨4, 3, ⟨0, 0, 0, 10, []⟩, ⟨0, 0, 0, 10, []⟩, [0]⟩, 1⟩ ∧
    exit_handler [0] ⟨4, 3, ⟨0, 0, 0, 10, []⟩, ⟨0, 0, 0, 10, []⟩, [0]⟩ 2 =
      ⟨[.printf cleaning_text, .tcsetattr ⟨0, 0, 0, 10, []⟩, .close 4, .close 3,
        .printf (lit "Exiting...\n")], .exited 0⟩ :=
  ⟨by decide, by decide,
    (interrupt_restores_snapshot 2 sample_start [lit "talker", lit "127.0.0.1"]
      ⟨⟨4, 3, ⟨0, 0, 0, 10, []⟩, ⟨0, 0, 0, 10, []⟩, [0]⟩, 1⟩ 0 [] 2
      (Reachable.step (typing []) ⟨sample_globals, 0⟩ _
        (Reachable.start sample_globals (by decide)) (by decide))
      rfl (by decide)).2.2.2.2⟩

/-- Cleanup while every restoring `tcsetattr` fails: each failure re-enters
the cleanup, and neither `close` nor `exit` is reached. -/
theorem cleaning_the_mess_failing (g : Globals) (n : Nat) :
    cleaning_the_mess g (List.replicate n (-1)) =
      ⟨(List.replicate n [Event.printf cleaning_text, .tcsetattr g.term_init,
          .perror "Failed to restore initial terminal settings"]).flatten ++
        [.printf cleaning_text, .tcsetattr g.term_init], .pending⟩ := by
  induction n with
  | zero => simp [cleaning_the_mess, Run.bind, call, await, cleaning_text]
  | succ n ih =>
    simp only [List.replicate_succ, cleaning_the_mess, restore_terminal_settings_with,
      err_assert_with, bind_eq, call_bind, ih]
    simp [Run.bind, call, exit, cleaning_text]

/-- C10, the defect: in Idle with the keyboard reported, let the mode-switching
`tcsetattr` fail and let the restoring `tcsetattr` of the cleanup fail `n`
times in a row.  For every `n` the error exit is still inside the cleanup:
after the failure report it has tried to restore the terminal `n + 1` times,
has closed no socket and has not reached `exit(1)`. -/
theorem cleanup_reenters_on_failed_restore (ICANON : Nat) (g : Globals) (n : Nat) :
    iteration ICANON (hung_terminal n) ⟨g, 0⟩ =
      ⟨[.select (g.in_fd + 1) [g.in_fd, 0],
          .tcsetattr { g.term with c_lflag := g.term.c_lflag ||| ICANON },
          .perror ""] ++
        (List.replicate n [Event.printf cleaning_text, .tcsetattr g.term_init,
          .perror "Failed to restore initial terminal settings"]).flatten ++
        [.printf cleaning_text, .tcsetattr g.term_init], .pending⟩ := by
  rw [iteration_idle_keyboard ICANON (hung_terminal n) ⟨g, 0⟩ rfl
      (by simp [hung_terminal]) (by simp [hung_terminal]),
    call_bind, set_canon_on_eq, call_bind]
  have hcl := cleaning_the_mess_failing
    (with_canon_on ICANON (after_select (hung_terminal n) g)) n
  simp only [err_assert, err_assert_with, hung_terminal, bind_eq, call_bind] at hcl ⊢
  simp only [hcl]
  simp [Run.bind, call, with_canon_on, after_select]

end Talker
